import Mathlib

/-!
Verification development for the LIDAR point-cloud batch workflow.

The repository contains two near-duplicate implementations of the same
orchestration loop: a standalone script (file DSM.py) and a QGIS processing
algorithm (file DSM-QGIS.py).  Both enumerate point-cloud files in an input
directory, run a fixed four-stage external pipeline per file (filter ground
class 2, filter buildings class 6, merge, rasterize), collect the produced
rasters, and run an optional fill-nodata pass over them.

The development below is a shallow embedding of that orchestration logic.
External subprocess outcomes are supplied by an environment oracle; the
filesystem is a set of structured paths threaded through the interpreter,
and every externally observable action (subprocess invocation together with
the timeout argument passed, file writes, deletions, reported error text)
is recorded in an event list.
-/

namespace Lidar

/-- A file name in a directory listing, split the way Python pathlib splits
it into stem and extension (extension given without the dot). -/
structure FileName where
  stem : String
  ext : String
deriving Repr, DecidableEq

/-- The full file name, as Python Path.name. -/
def FileName.name (f : FileName) : String := f.stem ++ "." ++ f.ext

/-- A filesystem path: the containing folder plus the final component,
mirroring a pathlib join folder / name. -/
structure FPath where
  folder : String
  name : String
deriving Repr, DecidableEq

/-- Rendering of a path as the string placed on command lines, as str(Path). -/
def FPath.toStr (p : FPath) : String := p.folder ++ "/" ++ p.name

/-- Whether a string ends with the given suffix (on the character data, so
that it evaluates inside the kernel). -/
def strEndsWith (s sfx : String) : Bool := decide (sfx.data <:+ s.data)

/-- The stem of a bare file name: the name without its last dot-suffix,
as Python Path.stem computes it for ordinary names. -/
def nameStem (n : String) : String :=
  let parts := n.splitOn "."
  if parts.length ≤ 1 then n else String.intercalate "." parts.dropLast

/-- One element of a PDAL pipeline description, modelling the JSON values the
two scripts build: a plain path string, a range filter, a merge filter, or a
gdal writer carrying the output file name and raster parameters. -/
inductive PNode where
  | path (p : String)
  | filterRange (limits : String)
  | mergeOp
  | rasterOp (filename : String) (resolution : ℚ) (outputType : String) (gdalopts : String)
deriving Repr, DecidableEq

/-- A pipeline description is the ordered list under the single "pipeline"
key of the JSON document. -/
abbrev Pipeline := List PNode

/-- Outcome of one external process run, as distinguished by the except
clauses in the sources: clean exit, non-zero exit with captured stderr,
timeout expiry, or any other raised exception. -/
inductive Outcome where
  | ok
  | fail (stderr : String)
  | timeout
  | exc (msg : String)
deriving Repr, DecidableEq

/-- Result of a command-runner call as seen by its caller: returned True,
returned False, or let an exception escape. -/
inductive RunRes where
  | succeeded
  | failedRun
  | raised (msg : String)
deriving Repr, DecidableEq

/-- The environment: outcome of each external command, the cooperative
cancellation flag as sampled at the n-th poll, and whether deleting a given
path raises an OS error. -/
structure Env where
  run : List String → Outcome
  canceled : Nat → Bool
  unlinkExc : String → Bool

/-- Observable events of a batch run: a pipeline JSON written to disk, a
subprocess invocation together with the timeout argument passed to it, a
file created by the external engine, a file deleted, and reported error
text. -/
inductive Event where
  | writeJson (p : FPath) (content : Pipeline)
  | invoke (cmd : List String) (timeoutSec : Option Nat)
  | created (p : FPath)
  | deleted (p : FPath)
  | errorMsg (m : String)
deriving Repr, DecidableEq

/-- Interpreter state: the set of files on disk and the number of
cancellation polls performed so far. -/
structure St where
  files : List FPath
  polls : Nat
deriving Repr, DecidableEq

/-- Add a path to the file set (idempotent). -/
def addFile (p : FPath) (fs : List FPath) : List FPath :=
  if p ∈ fs then fs else p :: fs

/-- Remove a path from the file set. -/
def removeFile (p : FPath) (fs : List FPath) : List FPath :=
  fs.filter (fun q => decide (q ≠ p))

/-- The subprocess invocations among a list of events, with the timeout each
one passed. -/
def invokesOf (es : List Event) : List (List String × Option Nat) :=
  es.filterMap (fun e =>
    match e with
    | .invoke c t => some (c, t)
    | _ => none)

/-- The pipeline descriptions written to disk among a list of events, in
order. -/
def writtenOf (es : List Event) : List Pipeline :=
  es.filterMap (fun e =>
    match e with
    | .writeJson _ c => some c
    | _ => none)

/-- Poll the cooperative cancellation flag (feedback.isCanceled()). -/
def pollCanceled (env : Env) (s : St) : St × Bool :=
  ({ s with polls := s.polls + 1 }, env.canceled s.polls)

/-- Delete a path guarded by an existence check, as the QGIS variant does
with if f.exists(): f.unlink(); a raised OS error is surfaced as the third
component. -/
def unlinkIfExists (env : Env) (p : FPath) (s : St) : St × List Event × Option String :=
  if p ∈ s.files then
    if env.unlinkExc p.toStr then (s, [], some ("unlink: " ++ p.toStr))
    else ({ s with files := removeFile p s.files }, [.deleted p], none)
  else (s, [], none)

/-- Delete a list of paths in order with existence checks, stopping at the
first raised OS error. -/
def unlinkSeqIfExists (env : Env) : List FPath → St → St × List Event × Option String
  | [], s => (s, [], none)
  | p :: rest, s =>
    match unlinkIfExists env p s with
    | (s1, es, some m) => (s1, es, some m)
    | (s1, es, none) =>
      let (s2, es2, r) := unlinkSeqIfExists env rest s1
      (s2, es ++ es2, r)

/-- Delete a list of paths in order without existence checks, as the
standalone batch-end cleanup loop does, stopping at the first raised OS
error. -/
def unlinkSeq (env : Env) : List FPath → St → St × List Event × Option String
  | [], s => (s, [], none)
  | p :: rest, s =>
    if env.unlinkExc p.toStr then (s, [], some ("unlink: " ++ p.toStr))
    else
      let s1 : St := { s with files := removeFile p s.files }
      let (s2, es2, r) := unlinkSeq env rest s1
      (s2, .deleted p :: es2, r)

/-- The ordered candidate list for the fill tool, shared verbatim by both
variants (the list named opciones in both sources). -/
def opciones : List (List String) :=
  [["python", "-m", "osgeo_utils.gdal_fillnodata"],
   ["gdal_fillnodata"],
   ["gdal_fillnodata.py"]]

/-- The probe loop shared by get_fillnodata_command (standalone) and
_detect_fillnodata (QGIS): probe each candidate with --help and a 5-second
timeout; a bare except treats every non-clean outcome as unavailability and
moves to the next candidate; no candidate left means None. -/
def detectFrom (env : Env) : List (List String) → Option (List String) × List Event
  | [] => (none, [])
  | c :: rest =>
    let probeCmd := c ++ ["--help"]
    let e := Event.invoke probeCmd (some 5)
    if env.run probeCmd = .ok then (some c, [e])
    else
      let (r, es) := detectFrom env rest
      (r, e :: es)

/-- Result of one whole batch: either the reported counts (produced, total)
or the message of the exception or fatal precondition that aborted it. -/
inductive BatchRes where
  | counts (produced total : Nat)
  | aborted (msg : String)
deriving Repr, DecidableEq

/-- Result record of one whole batch: final filesystem/poll state, the full
event list, and the batch result. -/
structure BatchOut where
  state : St
  events : List Event
  result : BatchRes
deriving Repr, DecidableEq

end Lidar

namespace DSM

open Lidar

/-- Hardcoded input folder of the standalone script. -/
def INPUT_FOLDER : String := "C:/Users/lucas/Downloads/toledo3"

/-- Hardcoded output folder of the standalone script. -/
def OUTPUT_FOLDER : String := "C:/Users/lucas/Downloads/toledo3/resultados"

/-- Hardcoded folder for filled rasters of the standalone script. -/
def NODATA_FOLDER : String := "C:/Users/lucas/Downloads/toledo3/resultados/nodata_rasters"

/-- Hardcoded folder for transient pipeline JSON files of the standalone
script. -/
def TEMP_FOLDER : String := "C:/Users/lucas/Downloads/toledo3/temp"

/-- Raster resolution constant RESOLUTION = 0.5. -/
def RESOLUTION : ℚ := 1 / 2

/-- Fill distance constant FILL_DISTANCE = 75. -/
def FILL_DISTANCE : Nat := 75

/-- The file enumeration of the standalone script:
list(INPUT_FOLDER.glob("*.laz")) — a non-recursive scan keeping exactly the
files with extension laz. -/
def lazFiles (listing : List FileName) : List FileName :=
  listing.filter (fun f => decide (f.ext = "laz"))

/-- Model of run_command in the standalone script: subprocess.run with
check=True, capture_output=True and no timeout argument; only
CalledProcessError is caught (printing a generic line and, when stderr is
non-empty, the stripped stderr); any other exception escapes. -/
def runCommand (env : Env) (cmd : List String) (description : String) :
    RunRes × List Event :=
  match env.run cmd with
  | .ok => (.succeeded, [.invoke cmd none])
  | .fail stderr =>
    (.failedRun,
      [.invoke cmd none, .errorMsg ("Error en " ++ description)] ++
        (if stderr = "" then [] else [.errorMsg stderr.trim]))
  | .timeout => (.raised "subprocess.TimeoutExpired", [.invoke cmd none])
  | .exc m => (.raised m, [.invoke cmd none])

/-- create_pipeline_json: the range-filter pipeline keyed on a
classification code. -/
def createPipelineJson (inputFile outputFile : FPath) (classification : Nat) : Pipeline :=
  [.path inputFile.toStr,
   .filterRange ("Classification[" ++ toString classification ++ ":" ++ toString classification ++ "]"),
   .path outputFile.toStr]

/-- create_merge_pipeline_json: the merge pipeline over a list of inputs. -/
def createMergePipelineJson (inputFiles : List FPath) (outputFile : FPath) : Pipeline :=
  inputFiles.map (fun f => PNode.path f.toStr) ++ [.mergeOp, .path outputFile.toStr]

/-- create_raster_pipeline_json: the writers.gdal raster pipeline. -/
def createRasterPipelineJson (inputFile outputFile : FPath) (resolution : ℚ) : Pipeline :=
  [.path inputFile.toStr,
   .rasterOp outputFile.toStr resolution "max" "COMPRESS=DEFLATE,TILED=YES"]

/-- run_pdal_pipeline: write the pipeline JSON to its transient file, then
invoke pdal pipeline on that file through run_command.  Modelled from the
spec: the External Processing Engine is an opaque collaborator; on a clean
exit it creates the stage output file. -/
def runPdalPipeline (env : Env) (pl : Pipeline) (pipelineFile engineOut : FPath)
    (description : String) (s : St) : St × RunRes × List Event :=
  let s1 : St := { s with files := addFile pipelineFile s.files }
  let cmd : List String := ["pdal", "pipeline", pipelineFile.toStr]
  match runCommand env cmd description with
  | (.succeeded, es) =>
    ({ s1 with files := addFile engineOut s1.files }, .succeeded,
      Event.writeJson pipelineFile pl :: es ++ [.created engineOut])
  | (r, es) => (s1, r, Event.writeJson pipelineFile pl :: es)

/-- Intermediate artifact path base_name_suelo.las. -/
def outputSuelo (it : FileName) : FPath := ⟨OUTPUT_FOLDER, it.stem ++ "_suelo.las"⟩

/-- Intermediate artifact path base_name_edificios.las. -/
def outputEdificios (it : FileName) : FPath := ⟨OUTPUT_FOLDER, it.stem ++ "_edificios.las"⟩

/-- Intermediate artifact path base_name_merged.las. -/
def outputMerged (it : FileName) : FPath := ⟨OUTPUT_FOLDER, it.stem ++ "_merged.las"⟩

/-- Final raster path base_name_raster.tif. -/
def rasterOutput (it : FileName) : FPath := ⟨OUTPUT_FOLDER, it.stem ++ "_raster.tif"⟩

/-- Transient pipeline file pipeline_suelo_base.json. -/
def pipelineSuelo (it : FileName) : FPath :=
  ⟨TEMP_FOLDER, "pipeline_suelo_" ++ it.stem ++ ".json"⟩

/-- Transient pipeline file pipeline_edificios_base.json. -/
def pipelineEdificios (it : FileName) : FPath :=
  ⟨TEMP_FOLDER, "pipeline_edificios_" ++ it.stem ++ ".json"⟩

/-- Transient pipeline file pipeline_merge_base.json. -/
def pipelineMerge (it : FileName) : FPath :=
  ⟨TEMP_FOLDER, "pipeline_merge_" ++ it.stem ++ ".json"⟩

/-- Transient pipeline file pipeline_raster_base.json. -/
def pipelineRaster (it : FileName) : FPath :=
  ⟨TEMP_FOLDER, "pipeline_raster_" ++ it.stem ++ ".json"⟩

/-- Reported item-level exception line. -/
def itemError (it : FileName) (m : String) : Event :=
  .errorMsg ("Error procesando " ++ it.name ++ ": " ++ m)

/-- One iteration of the per-file loop of the standalone script: the four
gated stages inside try/except; a stage returning False continues to the
next file, an exception is reported and likewise continues; on full success
the raster path is appended.  No file is deleted in this loop. -/
def processItem (env : Env) (it : FileName) (s : St) : St × Option FPath × List Event :=
  let src : FPath := ⟨INPUT_FOLDER, it.name⟩
  let (s1, r1, e1) := runPdalPipeline env (createPipelineJson src (outputSuelo it) 2)
      (pipelineSuelo it) (outputSuelo it) "filtrado de suelo" s
  match r1 with
  | .failedRun => (s1, none, e1)
  | .raised m => (s1, none, e1 ++ [itemError it m])
  | .succeeded =>
    let (s2, r2, e2) := runPdalPipeline env (createPipelineJson src (outputEdificios it) 6)
        (pipelineEdificios it) (outputEdificios it) "filtrado de edificios" s1
    match r2 with
    | .failedRun => (s2, none, e1 ++ e2)
    | .raised m => (s2, none, e1 ++ e2 ++ [itemError it m])
    | .succeeded =>
      let (s3, r3, e3) := runPdalPipeline env
          (createMergePipelineJson [outputSuelo it, outputEdificios it] (outputMerged it))
          (pipelineMerge it) (outputMerged it) "fusión" s2
      match r3 with
      | .failedRun => (s3, none, e1 ++ e2 ++ e3)
      | .raised m => (s3, none, e1 ++ e2 ++ e3 ++ [itemError it m])
      | .succeeded =>
        let (s4, r4, e4) := runPdalPipeline env
            (createRasterPipelineJson (outputMerged it) (rasterOutput it) RESOLUTION)
            (pipelineRaster it) (rasterOutput it) "generación de raster" s3
        match r4 with
        | .failedRun => (s4, none, e1 ++ e2 ++ e3 ++ e4)
        | .raised m => (s4, none, e1 ++ e2 ++ e3 ++ e4 ++ [itemError it m])
        | .succeeded => (s4, some (rasterOutput it), e1 ++ e2 ++ e3 ++ e4)

/-- The sequential per-file loop of the standalone script (no cancellation
support). -/
def itemLoop (env : Env) : List FileName → St → St × List FPath × List Event
  | [], s => (s, [], [])
  | it :: rest, s =>
    let (s1, r, es) := processItem env it s
    let (s2, rs, es2) := itemLoop env rest s1
    (s2, r.toList ++ rs, es ++ es2)

/-- get_fillnodata_command of the standalone script. -/
def getFillnodataCommand (env : Env) : Option (List String) × List Event :=
  detectFrom env opciones

/-- The fill loop of the standalone script: one run_command per raster,
writing raster_stem_nodata.tif into NODATA_FOLDER; a False result is
reported and the loop continues; an escaping exception aborts the script. -/
def fillLoop (env : Env) (fillnodataCmd : List String) :
    List FPath → St → St × List Event × Option String
  | [], s => (s, [], none)
  | rasterFile :: rest, s =>
    let outputNodata : FPath := ⟨NODATA_FOLDER, nameStem rasterFile.name ++ "_nodata.tif"⟩
    let cmd := fillnodataCmd ++
      ["-md", toString FILL_DISTANCE, "-si", "0", rasterFile.toStr, outputNodata.toStr]
    match runCommand env cmd "relleno de NoData" with
    | (.succeeded, es) =>
      let s1 : St := { s with files := addFile outputNodata s.files }
      let (s2, es2, r) := fillLoop env fillnodataCmd rest s1
      (s2, es ++ [.created outputNodata] ++ es2, r)
    | (.failedRun, es) =>
      let (s2, es2, r) := fillLoop env fillnodataCmd rest s
      (s2, es ++ es2, r)
    | (.raised m, es) => (s, es, some m)

/-- The fill phase of the standalone script: skipped when no raster was
produced; otherwise detect the tool once, report unavailability without
failing, else fill every raster. -/
def fillPhase (env : Env) (rasters : List FPath) (s : St) : St × List Event × Option String :=
  if rasters.isEmpty then (s, [], none)
  else
    match getFillnodataCommand env with
    | (none, edet) =>
      (s, edet ++ [.errorMsg "No se pudo encontrar gdal_fillnodata en el sistema"], none)
    | (some c, edet) =>
      let (s1, es, r) := fillLoop env c rasters s
      (s1, edet ++ es, r)

/-- Whether a path is a direct child of TEMP_FOLDER matching *.json. -/
def isTempJson (p : FPath) : Bool :=
  decide (p.folder = TEMP_FOLDER) && strEndsWith p.name ".json"

/-- The batch-end cleanup loop of the standalone script: unlink every file
matching *.json in TEMP_FOLDER, whatever wrote it. -/
def batchEndCleanup (env : Env) (s : St) : St × List Event × Option String :=
  unlinkSeq env (s.files.filter isTempJson) s

/-- The whole standalone script: enumerate laz files (exiting outright when
none is found), run the per-file loop, run the fill phase, delete the
transient JSON files, and print produced/total counts. -/
def main (env : Env) (listing : List FileName) (s : St) : BatchOut :=
  let laz := lazFiles listing
  if laz.isEmpty then
    { state := s, events := [.errorMsg "No se encontraron archivos .laz en la carpeta de entrada"],
      result := .aborted "No se encontraron archivos .laz en la carpeta de entrada" }
  else
    let (s1, rasters, e1) := itemLoop env laz s
    match fillPhase env rasters s1 with
    | (s2, e2, some m) => { state := s2, events := e1 ++ e2, result := .aborted m }
    | (s2, e2, none) =>
      match batchEndCleanup env s2 with
      | (s3, e3, some m) => { state := s3, events := e1 ++ e2 ++ e3, result := .aborted m }
      | (s3, e3, none) =>
        { state := s3, events := e1 ++ e2 ++ e3, result := .counts rasters.length laz.length }

end DSM

namespace QGIS

open Lidar

/-- The nested folder output/temp for transient pipeline files. -/
def tempF (outputFolder : String) : String := outputFolder ++ "/temp"

/-- The nested folder output/nodata_raster_final for filled rasters. -/
def nodataF (outputFolder : String) : String := outputFolder ++ "/nodata_raster_final"

/-- The file enumeration of the QGIS variant:
list(glob("*.laz")) + list(glob("*.las")). -/
def lazFiles (listing : List FileName) : List FileName :=
  listing.filter (fun f => decide (f.ext = "laz")) ++
    listing.filter (fun f => decide (f.ext = "las"))

/-- Model of _run_command in the QGIS variant: subprocess.run with
check=True, capture_output=True and timeout=300.  A CalledProcessError
reports the stripped stderr, or the literal Sin detalles when stderr is
empty; a TimeoutExpired reports the dedicated timeout message; both return
False.  Any other exception escapes. -/
def runCommand (env : Env) (cmd : List String) : RunRes × List Event :=
  match env.run cmd with
  | .ok => (.succeeded, [.invoke cmd (some 300)])
  | .fail stderr =>
    (.failedRun,
      [.invoke cmd (some 300),
       .errorMsg ("Error: " ++ (if stderr = "" then "Sin detalles" else stderr.trim))])
  | .timeout =>
    (.failedRun,
      [.invoke cmd (some 300), .errorMsg "Timeout: comando excedió 5 minutos"])
  | .exc m => (.raised m, [.invoke cmd (some 300)])

/-- _create_filter_pipeline of the QGIS variant. -/
def createFilterPipeline (inputFile outputFile : FPath) (classification : Nat) : Pipeline :=
  [.path inputFile.toStr,
   .filterRange ("Classification[" ++ toString classification ++ ":" ++ toString classification ++ "]"),
   .path outputFile.toStr]

/-- _create_merge_pipeline of the QGIS variant. -/
def createMergePipeline (inputFiles : List FPath) (outputFile : FPath) : Pipeline :=
  inputFiles.map (fun f => PNode.path f.toStr) ++ [.mergeOp, .path outputFile.toStr]

/-- _create_raster_pipeline of the QGIS variant. -/
def createRasterPipeline (inputFile outputFile : FPath) (resolution : ℚ) : Pipeline :=
  [.path inputFile.toStr,
   .rasterOp outputFile.toStr resolution "max" "COMPRESS=DEFLATE,TILED=YES"]

/-- _run_pdal_pipeline of the QGIS variant: write the pipeline JSON to its
transient file, then invoke pdal pipeline on it through _run_command.
Modelled from the spec: the External Processing Engine is an opaque
collaborator; on a clean exit it creates the stage output file. -/
def runPdalPipeline (env : Env) (pl : Pipeline) (pipelineFile engineOut : FPath)
    (s : St) : St × RunRes × List Event :=
  let s1 : St := { s with files := addFile pipelineFile s.files }
  let cmd : List String := ["pdal", "pipeline", pipelineFile.toStr]
  match runCommand env cmd with
  | (.succeeded, es) =>
    ({ s1 with files := addFile engineOut s1.files }, .succeeded,
      Event.writeJson pipelineFile pl :: es ++ [.created engineOut])
  | (r, es) => (s1, r, Event.writeJson pipelineFile pl :: es)

/-- Intermediate artifact path base_name_suelo.las. -/
def outputSuelo (outputFolder : String) (it : FileName) : FPath :=
  ⟨outputFolder, it.stem ++ "_suelo.las"⟩

/-- Intermediate artifact path base_name_edificios.las. -/
def outputEdificios (outputFolder : String) (it : FileName) : FPath :=
  ⟨outputFolder, it.stem ++ "_edificios.las"⟩

/-- Intermediate artifact path base_name_merged.las. -/
def outputMerged (outputFolder : String) (it : FileName) : FPath :=
  ⟨outputFolder, it.stem ++ "_merged.las"⟩

/-- Final raster path base_name_raster.tif. -/
def rasterOutput (outputFolder : String) (it : FileName) : FPath :=
  ⟨outputFolder, it.stem ++ "_raster.tif"⟩

/-- Transient pipeline file pipeline_suelo_base.json. -/
def pipelineSuelo (outputFolder : String) (it : FileName) : FPath :=
  ⟨tempF outputFolder, "pipeline_suelo_" ++ it.stem ++ ".json"⟩

/-- Transient pipeline file pipeline_edificios_base.json. -/
def pipelineEdificios (outputFolder : String) (it : FileName) : FPath :=
  ⟨tempF outputFolder, "pipeline_edificios_" ++ it.stem ++ ".json"⟩

/-- Transient pipeline file pipeline_merge_base.json. -/
def pipelineMerge (outputFolder : String) (it : FileName) : FPath :=
  ⟨tempF outputFolder, "pipeline_merge_" ++ it.stem ++ ".json"⟩

/-- Transient pipeline file pipeline_raster_base.json. -/
def pipelineRaster (outputFolder : String) (it : FileName) : FPath :=
  ⟨tempF outputFolder, "pipeline_raster_" ++ it.stem ++ ".json"⟩

/-- Reported item-level exception line of the QGIS variant. -/
def itemError (it : FileName) (m : String) : Event :=
  .errorMsg ("Error procesando " ++ it.name ++ ": " ++ m)

/-- The two deletion blocks that run after a fully successful item: when the
cleanup flag is set, the three intermediates are deleted first (each guarded
by an existence check), then the four transient pipeline files are deleted;
the first OS error aborts the remaining deletions and is surfaced. -/
def cleanupAfterSuccess (env : Env) (outputFolder : String) (cleanup : Bool)
    (it : FileName) (s : St) : St × List Event × Option String :=
  let (s5, e5, x5) :=
    if cleanup then
      unlinkSeqIfExists env
        [outputSuelo outputFolder it, outputEdificios outputFolder it,
         outputMerged outputFolder it] s
    else (s, [], none)
  match x5 with
  | some m => (s5, e5, some m)
  | none =>
    let (s6, e6, x6) := unlinkSeqIfExists env
        [pipelineSuelo outputFolder it, pipelineEdificios outputFolder it,
         pipelineMerge outputFolder it, pipelineRaster outputFolder it] s5
    (s6, e5 ++ e6, x6)

/-- The tail of a fully successful item: the raster path has already been
recorded, then the deletion blocks run; an OS error from them is reported
through the item-level handler but the recorded raster is kept. -/
def successResult (env : Env) (outputFolder : String) (cleanup : Bool) (it : FileName)
    (E : List Event) (s : St) : St × Option FPath × List Event :=
  match cleanupAfterSuccess env outputFolder cleanup it s with
  | (s5, e5, some m) =>
    (s5, some (rasterOutput outputFolder it), E ++ e5 ++ [itemError it m])
  | (s5, e5, none) => (s5, some (rasterOutput outputFolder it), E ++ e5)

/-- One iteration of the per-file loop of processAlgorithm: the four gated
stages inside try/except.  A stage returning False continues with the next
file, skipping both cleanup blocks; an exception is reported and likewise
continues.  After full success the raster is recorded, then (when the
cleanup flag is set) the three intermediates are deleted, then the four
transient pipeline files are deleted; an exception during either deletion
block is reported but the recorded raster is kept. -/
def processItem (env : Env) (inputFolder outputFolder : String) (resolution : ℚ)
    (cleanup : Bool) (it : FileName) (s : St) : St × Option FPath × List Event :=
  let src : FPath := ⟨inputFolder, it.name⟩
  let (s1, r1, e1) := runPdalPipeline env
      (createFilterPipeline src (outputSuelo outputFolder it) 2)
      (pipelineSuelo outputFolder it) (outputSuelo outputFolder it) s
  match r1 with
  | .failedRun => (s1, none, e1)
  | .raised m => (s1, none, e1 ++ [itemError it m])
  | .succeeded =>
    let (s2, r2, e2) := runPdalPipeline env
        (createFilterPipeline src (outputEdificios outputFolder it) 6)
        (pipelineEdificios outputFolder it) (outputEdificios outputFolder it) s1
    match r2 with
    | .failedRun => (s2, none, e1 ++ e2)
    | .raised m => (s2, none, e1 ++ e2 ++ [itemError it m])
    | .succeeded =>
      let (s3, r3, e3) := runPdalPipeline env
          (createMergePipeline [outputSuelo outputFolder it, outputEdificios outputFolder it]
            (outputMerged outputFolder it))
          (pipelineMerge outputFolder it) (outputMerged outputFolder it) s2
      match r3 with
      | .failedRun => (s3, none, e1 ++ e2 ++ e3)
      | .raised m => (s3, none, e1 ++ e2 ++ e3 ++ [itemError it m])
      | .succeeded =>
        let (s4, r4, e4) := runPdalPipeline env
            (createRasterPipeline (outputMerged outputFolder it)
              (rasterOutput outputFolder it) resolution)
            (pipelineRaster outputFolder it) (rasterOutput outputFolder it) s3
        match r4 with
        | .failedRun => (s4, none, e1 ++ e2 ++ e3 ++ e4)
        | .raised m => (s4, none, e1 ++ e2 ++ e3 ++ e4 ++ [itemError it m])
        | .succeeded => successResult env outputFolder cleanup it (e1 ++ e2 ++ e3 ++ e4) s4

/-- The sequential per-file loop of processAlgorithm: before each file the
cancellation flag is polled once; a set flag breaks out of the loop. -/
def itemLoop (env : Env) (inputFolder outputFolder : String) (resolution : ℚ)
    (cleanup : Bool) : List FileName → St → St × List FPath × List Event
  | [], s => (s, [], [])
  | it :: rest, s =>
    let (s1, c) := pollCanceled env s
    if c then (s1, [], [])
    else
      let (s2, r, es) := processItem env inputFolder outputFolder resolution cleanup it s1
      let (s3, rs, es2) := itemLoop env inputFolder outputFolder resolution cleanup rest s2
      (s3, r.toList ++ rs, es ++ es2)

/-- _detect_fillnodata of the QGIS variant. -/
def detectFillnodata (env : Env) : Option (List String) × List Event :=
  detectFrom env opciones

/-- The fill loop of processAlgorithm: before each raster the cancellation
flag is polled once (a set flag breaks); each raster is filled into
nodata_raster_final/raster_stem_filled.tif through _run_command; a False
result leaves that raster unfilled and the loop continues; an escaping
exception aborts the whole algorithm. -/
def fillLoop (env : Env) (fillnodataCmd : List String) (fillDistance : Nat)
    (outputFolder : String) : List FPath → St → St × List Event × Option String
  | [], s => (s, [], none)
  | rasterFile :: rest, s =>
    let (s1, c) := pollCanceled env s
    if c then (s1, [], none)
    else
      let outputNodata : FPath :=
        ⟨nodataF outputFolder, nameStem rasterFile.name ++ "_filled.tif"⟩
      let cmd := fillnodataCmd ++
        ["-md", toString fillDistance, "-si", "0", rasterFile.toStr, outputNodata.toStr]
      match runCommand env cmd with
      | (.succeeded, es) =>
        let s2 : St := { s1 with files := addFile outputNodata s1.files }
        let (s3, es2, r) := fillLoop env fillnodataCmd fillDistance outputFolder rest s2
        (s3, es ++ [.created outputNodata] ++ es2, r)
      | (.failedRun, es) =>
        let (s3, es2, r) := fillLoop env fillnodataCmd fillDistance outputFolder rest s1
        (s3, es ++ es2, r)
      | (.raised m, es) => (s1, es, some m)

/-- The fill phase of processAlgorithm: skipped when no raster was produced;
otherwise detect the tool once, report unavailability without failing, else
fill every raster. -/
def fillPhase (env : Env) (fillDistance : Nat) (outputFolder : String)
    (rasters : List FPath) (s : St) : St × List Event × Option String :=
  if rasters.isEmpty then (s, [], none)
  else
    match detectFillnodata env with
    | (none, edet) =>
      (s, edet ++ [.errorMsg "gdal_fillnodata no encontrado. Instala GDAL Python utilities."],
        none)
    | (some c, edet) =>
      let (s1, es, r) := fillLoop env c fillDistance outputFolder rasters s
      (s1, edet ++ es, r)

/-- processAlgorithm of the QGIS variant: enumerate laz/las files, raising
the fatal exception when none is found; run the per-file loop; run the fill
phase; return PROCESSED_COUNT and TOTAL_COUNT.  There is no batch-end
cleanup in this variant. -/
def processAlgorithm (env : Env) (inputFolder outputFolder : String)
    (listing : List FileName) (resolution : ℚ) (fillDistance : Nat) (cleanup : Bool)
    (s : St) : BatchOut :=
  let laz := lazFiles listing
  if laz.isEmpty then
    { state := s, events := [],
      result := .aborted "No se encontraron archivos LAZ/LAS en la carpeta" }
  else
    let (s1, rasters, e1) := itemLoop env inputFolder outputFolder resolution cleanup laz s
    match fillPhase env fillDistance outputFolder rasters s1 with
    | (s2, e2, some m) => { state := s2, events := e1 ++ e2, result := .aborted m }
    | (s2, e2, none) =>
      { state := s2, events := e1 ++ e2, result := .counts rasters.length laz.length }

end QGIS

namespace Lidar

/-- String cancellation on the right. -/
theorem strCancelRight {s1 s2 A : String} (h : s1 ++ A = s2 ++ A) : s1 = s2 := by
  have hd := congrArg String.data h
  rw [String.data_append, String.data_append] at hd
  exact String.ext (List.append_cancel_right hd)

/-- String cancellation on the left. -/
theorem strCancelLeft {A s1 s2 : String} (h : A ++ s1 = A ++ s2) : s1 = s2 := by
  have hd := congrArg String.data h
  rw [String.data_append, String.data_append] at hd
  exact String.ext (List.append_cancel_left hd)

/-- Two strings ending in suffix-incomparable tails are distinct whatever
stands before the tails. -/
theorem appendSuffixNe {A B : String} (hAB : ¬ A.data <:+ B.data)
    (hBA : ¬ B.data <:+ A.data) {s1 s2 : String} : s1 ++ A ≠ s2 ++ B := by
  intro h
  have hd := congrArg String.data h
  rw [String.data_append, String.data_append] at hd
  have h1 : A.data <:+ s2.data ++ B.data := hd ▸ List.suffix_append s1.data A.data
  rcases List.suffix_or_suffix_of_suffix h1 (List.suffix_append s2.data B.data) with h2 | h2
  · exact hAB h2
  · exact hBA h2

/-- Two strings starting with incomparable heads are distinct whatever
follows the heads. -/
theorem appendHeadNe {A B : String} (hAB : ¬ A.data <+: B.data)
    (hBA : ¬ B.data <+: A.data) {s1 s2 : String} : A ++ s1 ≠ B ++ s2 := by
  intro h
  have hd := congrArg String.data h
  rw [String.data_append, String.data_append] at hd
  have h1 : A.data <+: B.data ++ s2.data := hd ▸ List.prefix_append A.data s1.data
  rcases List.prefix_or_prefix_of_prefix h1 (List.prefix_append B.data s2.data) with h2 | h2
  · exact hAB h2
  · exact hBA h2

/-- A string never equals itself extended by a non-empty tail. -/
theorem strNeAppend (s : String) {t : String} (ht : t.data ≠ []) : s ≠ s ++ t := by
  intro h
  have hd := congrArg (fun x => x.data.length) h
  simp only [String.data_append, List.length_append] at hd
  exact ht (List.eq_nil_of_length_eq_zero (by omega))

/-- Membership in the file set after an insertion. -/
theorem mem_addFile {x p : FPath} {fs : List FPath} :
    x ∈ addFile p fs ↔ x = p ∨ x ∈ fs := by
  unfold addFile
  by_cases hp : p ∈ fs
  · simp only [if_pos hp]
    constructor
    · exact fun h => Or.inr h
    · rintro (rfl | h)
      · exact hp
      · exact h
  · simp [if_neg hp]

/-- Membership in the file set after a removal. -/
theorem mem_removeFile {x p : FPath} {fs : List FPath} :
    x ∈ removeFile p fs ↔ x ∈ fs ∧ x ≠ p := by
  simp [removeFile, List.mem_filter]

/-- The derived-artifact family of one work item, as a function of the two
folders and the item stem: the three intermediates, the raster, and the
four transient pipeline files. -/
def genericDerived (fOut fTemp stem : String) : List FPath :=
  [⟨fOut, stem ++ "_suelo.las"⟩,
   ⟨fOut, stem ++ "_edificios.las"⟩,
   ⟨fOut, stem ++ "_merged.las"⟩,
   ⟨fOut, stem ++ "_raster.tif"⟩,
   ⟨fTemp, "pipeline_suelo_" ++ stem ++ ".json"⟩,
   ⟨fTemp, "pipeline_edificios_" ++ stem ++ ".json"⟩,
   ⟨fTemp, "pipeline_merge_" ++ stem ++ ".json"⟩,
   ⟨fTemp, "pipeline_raster_" ++ stem ++ ".json"⟩]

/-- Invocation extraction distributes over append. -/
theorem invokesOf_append (a b : List Event) :
    invokesOf (a ++ b) = invokesOf a ++ invokesOf b :=
  List.filterMap_append a b _

/-- Invocation extraction of the empty trace. -/
theorem invokesOf_nil : invokesOf [] = [] := rfl

/-- Description extraction distributes over append. -/
theorem writtenOf_append (a b : List Event) :
    writtenOf (a ++ b) = writtenOf a ++ writtenOf b :=
  List.filterMap_append a b _

/-- Description extraction of the empty trace. -/
theorem writtenOf_nil : writtenOf [] = [] := rfl

/-- A reported error line is not an invocation. -/
theorem invokesOf_errorMsg (m : String) : invokesOf [Event.errorMsg m] = [] := rfl

/-- A reported error line is not a written description. -/
theorem writtenOf_errorMsg (m : String) : writtenOf [Event.errorMsg m] = [] := rfl

/-- Peeling one written-description event. -/
theorem writtenOf_cons_writeJson (p : FPath) (c : Pipeline) (rest : List Event) :
    writtenOf (Event.writeJson p c :: rest) = c :: writtenOf rest := rfl

/-- Invocations skip a written-description event. -/
theorem invokesOf_cons_writeJson (p : FPath) (c : Pipeline) (rest : List Event) :
    invokesOf (Event.writeJson p c :: rest) = invokesOf rest := rfl

/-- Peeling one invocation event. -/
theorem invokesOf_cons_invoke (c : List String) (t : Option Nat) (rest : List Event) :
    invokesOf (Event.invoke c t :: rest) = (c, t) :: invokesOf rest := rfl

/-- Written descriptions skip an invocation event. -/
theorem writtenOf_cons_invoke (c : List String) (t : Option Nat) (rest : List Event) :
    writtenOf (Event.invoke c t :: rest) = writtenOf rest := rfl

/-- Invocations skip a created-file event. -/
theorem invokesOf_cons_created (p : FPath) (rest : List Event) :
    invokesOf (Event.created p :: rest) = invokesOf rest := rfl

/-- Written descriptions skip a created-file event. -/
theorem writtenOf_cons_created (p : FPath) (rest : List Event) :
    writtenOf (Event.created p :: rest) = writtenOf rest := rfl

/-- Invocations skip a deleted-file event. -/
theorem invokesOf_cons_deleted (p : FPath) (rest : List Event) :
    invokesOf (Event.deleted p :: rest) = invokesOf rest := rfl

/-- Written descriptions skip a deleted-file event. -/
theorem writtenOf_cons_deleted (p : FPath) (rest : List Event) :
    writtenOf (Event.deleted p :: rest) = writtenOf rest := rfl

/-- Invocations skip a reported error line. -/
theorem invokesOf_cons_errorMsg (m : String) (rest : List Event) :
    invokesOf (Event.errorMsg m :: rest) = invokesOf rest := rfl

/-- Written descriptions skip a reported error line. -/
theorem writtenOf_cons_errorMsg (m : String) (rest : List Event) :
    writtenOf (Event.errorMsg m :: rest) = writtenOf rest := rfl

/-- The optional stderr line of the standalone runner is never an
invocation. -/
theorem invokesOf_stderrTail (c : Prop) [Decidable c] (x : String) :
    invokesOf (if c then [] else [Event.errorMsg x]) = [] := by
  split <;> rfl

/-- The optional stderr line of the standalone runner is never a written
description. -/
theorem writtenOf_stderrTail (c : Prop) [Decidable c] (x : String) :
    writtenOf (if c then [] else [Event.errorMsg x]) = [] := by
  split <;> rfl


/-- Whether an external outcome is a clean exit. -/
def isOk : Outcome → Bool
  | .ok => true
  | _ => false

/-- isOk characterization. -/
theorem isOk_iff {o : Outcome} : isOk o = true ↔ o = .ok := by
  cases o <;> simp [isOk]
/-- The stages a gated loop actually starts, given the planned list of
(command, description) stages: every stage up to and including the first
whose command does not exit cleanly. -/
def issuedOf (env : Env) : List (List String × Pipeline) → List (List String × Pipeline)
  | [] => []
  | cp :: rest => if isOk (env.run cp.1) then cp :: issuedOf env rest else [cp]


/-- An outcome that any of the command runners converts into a plain
boolean result: a clean exit or a non-zero exit.  Timeouts are tame only
for the QGIS runner, so they are excluded here. -/
def Tame (o : Outcome) : Prop := o = .ok ∨ ∃ e, o = .fail e

/-- An environment in which only the pdal stage commands may produce
outcomes beyond clean/non-zero exit; probes and fill invocations never
raise unexpected exceptions. -/
def TameNonPdal (env : Env) : Prop :=
  ∀ cmd : List String, cmd.head? ≠ some "pdal" → Tame (env.run cmd)

/-- Guarded sequential deletion preserves the poll counter. -/
theorem unlinkSeqIfExists_polls (env : Env) (ps : List FPath) (s : St) :
    (unlinkSeqIfExists env ps s).1.polls = s.polls := by
  induction ps generalizing s with
  | nil => rfl
  | cons p rest ih =>
    simp only [unlinkSeqIfExists, unlinkIfExists]
    by_cases hp : p ∈ s.files
    · by_cases hx : env.unlinkExc p.toStr
      · simp [hp, hx]
      · simp [hp, hx, ih]
    · simp [hp, ih]

/-- Guarded sequential deletion performs no subprocess invocation. -/
theorem unlinkSeqIfExists_invokes (env : Env) (ps : List FPath) (s : St) :
    invokesOf (unlinkSeqIfExists env ps s).2.1 = [] := by
  induction ps generalizing s with
  | nil => rfl
  | cons p rest ih =>
    simp only [unlinkSeqIfExists, unlinkIfExists]
    by_cases hp : p ∈ s.files
    · by_cases hx : env.unlinkExc p.toStr
      · simp [hp, hx, invokesOf]
      · simp [hp, hx, invokesOf, List.filterMap_append] at ih ⊢
        exact ih _
    · simp [hp, invokesOf, List.filterMap_append] at ih ⊢
      exact ih _

/-- Guarded sequential deletion writes no pipeline description. -/
theorem unlinkSeqIfExists_written (env : Env) (ps : List FPath) (s : St) :
    writtenOf (unlinkSeqIfExists env ps s).2.1 = [] := by
  induction ps generalizing s with
  | nil => rfl
  | cons p rest ih =>
    simp only [unlinkSeqIfExists, unlinkIfExists]
    by_cases hp : p ∈ s.files
    · by_cases hx : env.unlinkExc p.toStr
      · simp [hp, hx, writtenOf]
      · simp [hp, hx, writtenOf, List.filterMap_append] at ih ⊢
        exact ih _
    · simp [hp, writtenOf, List.filterMap_append] at ih ⊢
      exact ih _

/-- Guarded sequential deletion raises nothing when no deletion fails. -/
theorem unlinkSeqIfExists_noRaise (env : Env) (ps : List FPath) (s : St)
    (hu : ∀ q, env.unlinkExc q = false) :
    (unlinkSeqIfExists env ps s).2.2 = none := by
  induction ps generalizing s with
  | nil => rfl
  | cons p rest ih =>
    simp only [unlinkSeqIfExists, unlinkIfExists]
    by_cases hp : p ∈ s.files
    · simp [hp, hu, ih]
    · simp [hp, ih]

/-- Membership after guarded sequential deletion, when no deletion fails:
exactly the files not on the deletion list survive. -/
theorem unlinkSeqIfExists_files (env : Env) (ps : List FPath) (s : St)
    (hu : ∀ q, env.unlinkExc q = false) (x : FPath) :
    x ∈ (unlinkSeqIfExists env ps s).1.files ↔ x ∈ s.files ∧ x ∉ ps := by
  induction ps generalizing s with
  | nil => simp [unlinkSeqIfExists]
  | cons p rest ih =>
    simp only [unlinkSeqIfExists, unlinkIfExists]
    by_cases hp : p ∈ s.files
    · simp only [if_pos hp, hu, if_neg Bool.false_ne_true]
      rw [ih]
      simp only [mem_removeFile, List.mem_cons]
      tauto
    · simp only [if_neg hp]
      rw [ih]
      simp only [List.mem_cons]
      constructor
      · rintro ⟨hx, hr⟩
        refine ⟨hx, ?_⟩
        rintro (rfl | hc)
        · exact hp hx
        · exact hr hc
      · rintro ⟨hx, hr⟩
        exact ⟨hx, fun hc => hr (Or.inr hc)⟩

/-- Membership after unguarded sequential deletion, when no deletion
fails. -/
theorem unlinkSeq_files (env : Env) (ps : List FPath) (s : St)
    (hu : ∀ q, env.unlinkExc q = false) (x : FPath) :
    x ∈ (unlinkSeq env ps s).1.files ↔ x ∈ s.files ∧ x ∉ ps := by
  induction ps generalizing s with
  | nil => simp [unlinkSeq]
  | cons p rest ih =>
    simp only [unlinkSeq, hu, if_neg Bool.false_ne_true]
    rw [ih]
    simp only [mem_removeFile, List.mem_cons]
    tauto

/-- Unguarded sequential deletion raises nothing when no deletion fails. -/
theorem unlinkSeq_noRaise (env : Env) (ps : List FPath) (s : St)
    (hu : ∀ q, env.unlinkExc q = false) :
    (unlinkSeq env ps s).2.2 = none := by
  induction ps generalizing s with
  | nil => rfl
  | cons p rest ih =>
    simp only [unlinkSeq, hu, if_neg Bool.false_ne_true]
    exact ih _

/-- Unguarded sequential deletion preserves the poll counter. -/
theorem unlinkSeq_polls (env : Env) (ps : List FPath) (s : St) :
    (unlinkSeq env ps s).1.polls = s.polls := by
  induction ps generalizing s with
  | nil => rfl
  | cons p rest ih =>
    simp only [unlinkSeq]
    by_cases hx : env.unlinkExc p.toStr
    · simp [hx]
    · simp [hx, ih]

/-- The probe loop returns the first candidate whose probe exits cleanly,
and probes exactly the candidates up to and including that one. -/
theorem detectFrom_spec (env : Env) (cs : List (List String)) :
    (detectFrom env cs).1 = cs.find? (fun c => isOk (env.run (c ++ ["--help"]))) ∧
    (detectFrom env cs).2 =
      (cs.take ((cs.takeWhile (fun c => !isOk (env.run (c ++ ["--help"])))).length + 1)).map
        (fun c => Event.invoke (c ++ ["--help"]) (some 5)) := by
  induction cs with
  | nil => simp [detectFrom]
  | cons c rest ih =>
    by_cases h : env.run (c ++ ["--help"]) = .ok
    · simp [detectFrom, h, List.find?_cons, isOk, List.takeWhile_cons]
    · have hb : isOk (env.run (c ++ ["--help"])) = false := by
        rcases ho : env.run (c ++ ["--help"]) <;> first | exact absurd ho h | rfl
      simp [detectFrom, h, List.find?_cons, hb, List.takeWhile_cons, ih.1, ih.2]

/-- A detected candidate comes from the candidate list. -/
theorem detectFrom_mem (env : Env) (cs : List (List String)) (c : List String)
    (h : (detectFrom env cs).1 = some c) : c ∈ cs := by
  rw [(detectFrom_spec env cs).1] at h
  exact List.mem_of_find?_eq_some h

/-- No fill candidate starts with pdal, and all are non-empty, so a fill
invocation built from a candidate never carries the pdal head. -/
theorem opciones_head (c : List String) (hc : c ∈ opciones) (l : List String) :
    (c ++ l).head? ≠ some "pdal" := by
  simp only [opciones, List.mem_cons, List.not_mem_nil, or_false] at hc
  rcases hc with rfl | rfl | rfl <;> simp

/-- Distinct stems give disjoint derived-artifact families, provided the
output and transient folders differ. -/
theorem genericDerived_disjoint {fOut fTemp : String} (hf : fOut ≠ fTemp)
    {s1 s2 : String} (hs : s1 ≠ s2) :
    ∀ p ∈ genericDerived fOut fTemp s1, p ∉ genericDerived fOut fTemp s2 := by
  intro p hp hq
  simp only [genericDerived, List.mem_cons, List.not_mem_nil, or_false] at hp hq
  rcases hp with rfl | rfl | rfl | rfl | rfl | rfl | rfl | rfl <;>
    (simp only [FPath.mk.injEq] at hq
     rcases hq with ⟨hfold, hname⟩ | ⟨hfold, hname⟩ | ⟨hfold, hname⟩ | ⟨hfold, hname⟩ |
       ⟨hfold, hname⟩ | ⟨hfold, hname⟩ | ⟨hfold, hname⟩ | ⟨hfold, hname⟩ <;>
      first
        | exact hf hfold
        | exact hf hfold.symm
        | exact hs (strCancelRight hname)
        | exact hs (strCancelLeft (strCancelRight hname))
        | exact appendSuffixNe (by decide) (by decide) hname
        | exact appendHeadNe (by decide) (by decide) (strCancelRight hname))

end Lidar

namespace QGIS

open Lidar

/-- The four stage commands of one item, in the order processAlgorithm
issues them. -/
def stageCmds (outputFolder : String) (it : FileName) : List (List String) :=
  [["pdal", "pipeline", (pipelineSuelo outputFolder it).toStr],
   ["pdal", "pipeline", (pipelineEdificios outputFolder it).toStr],
   ["pdal", "pipeline", (pipelineMerge outputFolder it).toStr],
   ["pdal", "pipeline", (pipelineRaster outputFolder it).toStr]]

/-- The planned stage sequence of one item, in the order processAlgorithm
runs it: each stage command paired with the description built for it —
range filter on class 2, range filter on class 6, merge, rasterize. -/
def stagePlan (inputFolder outputFolder : String) (res : ℚ) (it : FileName) :
    List (List String × Pipeline) :=
  [(["pdal", "pipeline", (pipelineSuelo outputFolder it).toStr],
    createFilterPipeline ⟨inputFolder, it.name⟩ (outputSuelo outputFolder it) 2),
   (["pdal", "pipeline", (pipelineEdificios outputFolder it).toStr],
    createFilterPipeline ⟨inputFolder, it.name⟩ (outputEdificios outputFolder it) 6),
   (["pdal", "pipeline", (pipelineMerge outputFolder it).toStr],
    createMergePipeline [outputSuelo outputFolder it, outputEdificios outputFolder it]
      (outputMerged outputFolder it)),
   (["pdal", "pipeline", (pipelineRaster outputFolder it).toStr],
    createRasterPipeline (outputMerged outputFolder it) (rasterOutput outputFolder it) res)]

/-- Whether every stage command of the item exits cleanly (boolean form). -/
def allOkB (env : Env) (outputFolder : String) (it : FileName) : Bool :=
  (stageCmds outputFolder it).all (fun c => isOk (env.run c))

/-- Whether every stage command of the item exits cleanly. -/
def AllOk (env : Env) (outputFolder : String) (it : FileName) : Prop :=
  ∀ c ∈ stageCmds outputFolder it, env.run c = .ok

instance (env : Env) (outputFolder : String) (it : FileName) :
    Decidable (AllOk env outputFolder it) :=
  inferInstanceAs (Decidable (∀ c ∈ stageCmds outputFolder it, env.run c = .ok))

/-- The two forms agree. -/
theorem allOkB_iff (env : Env) (outputFolder : String) (it : FileName) :
    allOkB env outputFolder it = true ↔ AllOk env outputFolder it := by
  simp [allOkB, AllOk, isOk_iff]

/-- The eight derived paths of one work item: three intermediates, the
raster, and the four transient pipeline files. -/
def derivedPaths (outputFolder : String) (it : FileName) : List FPath :=
  [outputSuelo outputFolder it, outputEdificios outputFolder it,
   outputMerged outputFolder it, rasterOutput outputFolder it,
   pipelineSuelo outputFolder it, pipelineEdificios outputFolder it,
   pipelineMerge outputFolder it, pipelineRaster outputFolder it]

/-- The derived family is the generic stem-indexed family. -/
theorem derivedPaths_eq_generic (outputFolder : String) (it : FileName) :
    derivedPaths outputFolder it =
      genericDerived outputFolder (tempF outputFolder) it.stem := rfl

/-- The output folder differs from its nested temp folder. -/
theorem outFolder_ne_tempF (outputFolder : String) : outputFolder ≠ tempF outputFolder :=
  strNeAppend outputFolder (by decide)

/-- The post-success deletion blocks preserve the poll counter. -/
theorem cleanupAfterSuccess_polls (env : Env) (outputFolder : String) (cleanup : Bool)
    (it : FileName) (s : St) :
    (cleanupAfterSuccess env outputFolder cleanup it s).1.polls = s.polls := by
  unfold cleanupAfterSuccess
  cases cleanup
  · simp [unlinkSeqIfExists_polls]
  · rcases h5 : unlinkSeqIfExists env
        [outputSuelo outputFolder it, outputEdificios outputFolder it,
         outputMerged outputFolder it] s with ⟨s5, e5, x5⟩
    have hp5 : s5.polls = s.polls := by
      have := unlinkSeqIfExists_polls env
        [outputSuelo outputFolder it, outputEdificios outputFolder it,
         outputMerged outputFolder it] s
      rw [h5] at this
      exact this
    rcases x5 with _ | m
    · simp [h5, unlinkSeqIfExists_polls, hp5]
    · simp [h5, hp5]

/-- The post-success deletion blocks perform no subprocess invocation. -/
theorem cleanupAfterSuccess_invokes (env : Env) (outputFolder : String) (cleanup : Bool)
    (it : FileName) (s : St) :
    invokesOf (cleanupAfterSuccess env outputFolder cleanup it s).2.1 = [] := by
  unfold cleanupAfterSuccess
  cases cleanup
  · simp [invokesOf_append, invokesOf_nil, unlinkSeqIfExists_invokes]
  · rcases h5 : unlinkSeqIfExists env
        [outputSuelo outputFolder it, outputEdificios outputFolder it,
         outputMerged outputFolder it] s with ⟨s5, e5, x5⟩
    have hi5 : invokesOf e5 = [] := by
      have := unlinkSeqIfExists_invokes env
        [outputSuelo outputFolder it, outputEdificios outputFolder it,
         outputMerged outputFolder it] s
      rw [h5] at this
      exact this
    rcases x5 with _ | m
    · simp [h5, invokesOf_append, hi5, unlinkSeqIfExists_invokes]
    · simp [h5, hi5]

/-- The post-success deletion blocks write no pipeline description. -/
theorem cleanupAfterSuccess_written (env : Env) (outputFolder : String) (cleanup : Bool)
    (it : FileName) (s : St) :
    writtenOf (cleanupAfterSuccess env outputFolder cleanup it s).2.1 = [] := by
  unfold cleanupAfterSuccess
  cases cleanup
  · simp [writtenOf_append, writtenOf_nil, unlinkSeqIfExists_written]
  · rcases h5 : unlinkSeqIfExists env
        [outputSuelo outputFolder it, outputEdificios outputFolder it,
         outputMerged outputFolder it] s with ⟨s5, e5, x5⟩
    have hi5 : writtenOf e5 = [] := by
      have := unlinkSeqIfExists_written env
        [outputSuelo outputFolder it, outputEdificios outputFolder it,
         outputMerged outputFolder it] s
      rw [h5] at this
      exact this
    rcases x5 with _ | m
    · simp [h5, writtenOf_append, hi5, unlinkSeqIfExists_written]
    · simp [h5, hi5]

/-- The post-success deletion blocks raise nothing when no deletion
fails. -/
theorem cleanupAfterSuccess_noRaise (env : Env) (outputFolder : String) (cleanup : Bool)
    (it : FileName) (s : St) (hu : ∀ q, env.unlinkExc q = false) :
    (cleanupAfterSuccess env outputFolder cleanup it s).2.2 = none := by
  unfold cleanupAfterSuccess
  cases cleanup
  · simp [unlinkSeqIfExists_noRaise env _ _ hu]
  · rcases h5 : unlinkSeqIfExists env
        [outputSuelo outputFolder it, outputEdificios outputFolder it,
         outputMerged outputFolder it] s with ⟨s5, e5, x5⟩
    have hx5 : x5 = none := by
      have := unlinkSeqIfExists_noRaise env
        [outputSuelo outputFolder it, outputEdificios outputFolder it,
         outputMerged outputFolder it] s hu
      rw [h5] at this
      exact this
    subst hx5
    simp [h5, unlinkSeqIfExists_noRaise env _ _ hu]

/-- Membership in the file set after the post-success deletion blocks, when
no deletion fails: the pipeline files are gone, the intermediates are gone
exactly when the cleanup flag was set, and everything else survives. -/
theorem cleanupAfterSuccess_files (env : Env) (outputFolder : String) (cleanup : Bool)
    (it : FileName) (s : St) (hu : ∀ q, env.unlinkExc q = false) (x : FPath) :
    x ∈ (cleanupAfterSuccess env outputFolder cleanup it s).1.files ↔
      x ∈ s.files ∧
      (cleanup = true →
        x ∉ [outputSuelo outputFolder it, outputEdificios outputFolder it,
             outputMerged outputFolder it]) ∧
      x ∉ [pipelineSuelo outputFolder it, pipelineEdificios outputFolder it,
           pipelineMerge outputFolder it, pipelineRaster outputFolder it] := by
  unfold cleanupAfterSuccess
  cases cleanup
  · simp only [Bool.false_eq_true, if_false]
    rw [unlinkSeqIfExists_files env _ _ hu]
    simp
  · rcases h5 : unlinkSeqIfExists env
        [outputSuelo outputFolder it, outputEdificios outputFolder it,
         outputMerged outputFolder it] s with ⟨s5, e5, x5⟩
    have hx5 : x5 = none := by
      have := unlinkSeqIfExists_noRaise env
        [outputSuelo outputFolder it, outputEdificios outputFolder it,
         outputMerged outputFolder it] s hu
      rw [h5] at this
      exact this
    have hm5 : x ∈ s5.files ↔ x ∈ s.files ∧
        x ∉ [outputSuelo outputFolder it, outputEdificios outputFolder it,
             outputMerged outputFolder it] := by
      have := unlinkSeqIfExists_files env
        [outputSuelo outputFolder it, outputEdificios outputFolder it,
         outputMerged outputFolder it] s hu x
      rw [h5] at this
      exact this
    subst hx5
    simp only [eq_self_iff_true, if_true, h5]
    rw [unlinkSeqIfExists_files env _ _ hu, hm5]
    simp only [forall_const]
    tauto

/-- The success tail reports the raster recorded before the deletion
blocks, whatever the deletions do. -/
theorem successResult_produced (env : Env) (outputFolder : String) (cleanup : Bool)
    (it : FileName) (E : List Event) (s : St) :
    (successResult env outputFolder cleanup it E s).2.1 =
      some (rasterOutput outputFolder it) := by
  unfold successResult
  rcases h5 : cleanupAfterSuccess env outputFolder cleanup it s with ⟨s5, e5, x5⟩
  rcases x5 with _ | m <;> simp

/-- The success tail performs no further subprocess invocation. -/
theorem successResult_invokes (env : Env) (outputFolder : String) (cleanup : Bool)
    (it : FileName) (E : List Event) (s : St) :
    invokesOf (successResult env outputFolder cleanup it E s).2.2 = invokesOf E := by
  unfold successResult
  rcases h5 : cleanupAfterSuccess env outputFolder cleanup it s with ⟨s5, e5, x5⟩
  have hi5 : invokesOf e5 = [] := by
    have := cleanupAfterSuccess_invokes env outputFolder cleanup it s
    rw [h5] at this
    exact this
  rcases x5 with _ | m
  · simp [invokesOf_append, hi5]
  · simp [invokesOf_append, hi5, itemError, invokesOf_errorMsg]

/-- The success tail writes no further pipeline description. -/
theorem successResult_written (env : Env) (outputFolder : String) (cleanup : Bool)
    (it : FileName) (E : List Event) (s : St) :
    writtenOf (successResult env outputFolder cleanup it E s).2.2 = writtenOf E := by
  unfold successResult
  rcases h5 : cleanupAfterSuccess env outputFolder cleanup it s with ⟨s5, e5, x5⟩
  have hi5 : writtenOf e5 = [] := by
    have := cleanupAfterSuccess_written env outputFolder cleanup it s
    rw [h5] at this
    exact this
  rcases x5 with _ | m
  · simp [writtenOf_append, hi5]
  · simp [writtenOf_append, hi5, itemError, writtenOf_errorMsg]

/-- The success tail preserves the poll counter. -/
theorem successResult_polls (env : Env) (outputFolder : String) (cleanup : Bool)
    (it : FileName) (E : List Event) (s : St) :
    (successResult env outputFolder cleanup it E s).1.polls = s.polls := by
  unfold successResult
  rcases h5 : cleanupAfterSuccess env outputFolder cleanup it s with ⟨s5, e5, x5⟩
  have hp5 : s5.polls = s.polls := by
    have := cleanupAfterSuccess_polls env outputFolder cleanup it s
    rw [h5] at this
    exact this
  rcases x5 with _ | m <;> simp [hp5]

/-- Membership in the file set after the success tail, when no deletion
fails. -/
theorem successResult_files (env : Env) (outputFolder : String) (cleanup : Bool)
    (it : FileName) (E : List Event) (s : St) (hu : ∀ q, env.unlinkExc q = false)
    (x : FPath) :
    x ∈ (successResult env outputFolder cleanup it E s).1.files ↔
      x ∈ s.files ∧
      (cleanup = true →
        x ∉ [outputSuelo outputFolder it, outputEdificios outputFolder it,
             outputMerged outputFolder it]) ∧
      x ∉ [pipelineSuelo outputFolder it, pipelineEdificios outputFolder it,
           pipelineMerge outputFolder it, pipelineRaster outputFolder it] := by
  unfold successResult
  rcases h5 : cleanupAfterSuccess env outputFolder cleanup it s with ⟨s5, e5, x5⟩
  have hm5 := cleanupAfterSuccess_files env outputFolder cleanup it s hu x
  rw [h5] at hm5
  rcases x5 with _ | m <;> simpa using hm5

/-- Full characterization of one QGIS item: the subprocess invocations are
exactly the planned stage commands up to and including the first failing
one, each passed a 300-second timeout; the descriptions written to disk are
the matching planned descriptions, in order; the raster is produced exactly
when all four stage commands exit cleanly; and the cancellation flag is
never polled inside the item. -/
theorem processItem_spec (env : Env) (inF outF : String) (res : ℚ) (cleanup : Bool)
    (it : FileName) (s : St) :
    invokesOf (processItem env inF outF res cleanup it s).2.2 =
      (issuedOf env (stagePlan inF outF res it)).map (fun cp => (cp.1, some 300)) ∧
    writtenOf (processItem env inF outF res cleanup it s).2.2 =
      (issuedOf env (stagePlan inF outF res it)).map (fun cp => cp.2) ∧
    (processItem env inF outF res cleanup it s).2.1 =
      (if AllOk env outF it then some (rasterOutput outF it) else none) ∧
    (processItem env inF outF res cleanup it s).1.polls = s.polls := by
  rcases h1 : env.run ["pdal", "pipeline", (pipelineSuelo outF it).toStr] with _ | e1 | _ | m1
  · rcases h2 : env.run ["pdal", "pipeline", (pipelineEdificios outF it).toStr] with _ | e2 | _ | m2
    · rcases h3 : env.run ["pdal", "pipeline", (pipelineMerge outF it).toStr] with _ | e3 | _ | m3
      · rcases h4 : env.run ["pdal", "pipeline", (pipelineRaster outF it).toStr] with _ | e4 | _ | m4
        · simp [*, processItem, runPdalPipeline, runCommand, stagePlan, issuedOf, isOk, AllOk,
        stageCmds, invokesOf_cons_writeJson, invokesOf_cons_invoke, invokesOf_cons_created,
        invokesOf_cons_deleted, invokesOf_cons_errorMsg, writtenOf_cons_writeJson,
        writtenOf_cons_invoke, writtenOf_cons_created, writtenOf_cons_deleted,
        writtenOf_cons_errorMsg, invokesOf_append, writtenOf_append, invokesOf_nil,
        writtenOf_nil, successResult_produced, successResult_invokes, successResult_written,
        successResult_polls, itemError, List.forall_mem_cons]
        · simp [*, processItem, runPdalPipeline, runCommand, stagePlan, issuedOf, isOk, AllOk,
        stageCmds, invokesOf_cons_writeJson, invokesOf_cons_invoke, invokesOf_cons_created,
        invokesOf_cons_deleted, invokesOf_cons_errorMsg, writtenOf_cons_writeJson,
        writtenOf_cons_invoke, writtenOf_cons_created, writtenOf_cons_deleted,
        writtenOf_cons_errorMsg, invokesOf_append, writtenOf_append, invokesOf_nil,
        writtenOf_nil, successResult_produced, successResult_invokes, successResult_written,
        successResult_polls, itemError, List.forall_mem_cons]
        · simp [*, processItem, runPdalPipeline, runCommand, stagePlan, issuedOf, isOk, AllOk,
        stageCmds, invokesOf_cons_writeJson, invokesOf_cons_invoke, invokesOf_cons_created,
        invokesOf_cons_deleted, invokesOf_cons_errorMsg, writtenOf_cons_writeJson,
        writtenOf_cons_invoke, writtenOf_cons_created, writtenOf_cons_deleted,
        writtenOf_cons_errorMsg, invokesOf_append, writtenOf_append, invokesOf_nil,
        writtenOf_nil, successResult_produced, successResult_invokes, successResult_written,
        successResult_polls, itemError, List.forall_mem_cons]
        · simp [*, processItem, runPdalPipeline, runCommand, stagePlan, issuedOf, isOk, AllOk,
        stageCmds, invokesOf_cons_writeJson, invokesOf_cons_invoke, invokesOf_cons_created,
        invokesOf_cons_deleted, invokesOf_cons_errorMsg, writtenOf_cons_writeJson,
        writtenOf_cons_invoke, writtenOf_cons_created, writtenOf_cons_deleted,
        writtenOf_cons_errorMsg, invokesOf_append, writtenOf_append, invokesOf_nil,
        writtenOf_nil, successResult_produced, successResult_invokes, successResult_written,
        successResult_polls, itemError, List.forall_mem_cons]
      · simp [*, processItem, runPdalPipeline, runCommand, stagePlan, issuedOf, isOk, AllOk,
        stageCmds, invokesOf_cons_writeJson, invokesOf_cons_invoke, invokesOf_cons_created,
        invokesOf_cons_deleted, invokesOf_cons_errorMsg, writtenOf_cons_writeJson,
        writtenOf_cons_invoke, writtenOf_cons_created, writtenOf_cons_deleted,
        writtenOf_cons_errorMsg, invokesOf_append, writtenOf_append, invokesOf_nil,
        writtenOf_nil, successResult_produced, successResult_invokes, successResult_written,
        successResult_polls, itemError, List.forall_mem_cons]
      · simp [*, processItem, runPdalPipeline, runCommand, stagePlan, issuedOf, isOk, AllOk,
        stageCmds, invokesOf_cons_writeJson, invokesOf_cons_invoke, invokesOf_cons_created,
        invokesOf_cons_deleted, invokesOf_cons_errorMsg, writtenOf_cons_writeJson,
        writtenOf_cons_invoke, writtenOf_cons_created, writtenOf_cons_deleted,
        writtenOf_cons_errorMsg, invokesOf_append, writtenOf_append, invokesOf_nil,
        writtenOf_nil, successResult_produced, successResult_invokes, successResult_written,
        successResult_polls, itemError, List.forall_mem_cons]
      · simp [*, processItem, runPdalPipeline, runCommand, stagePlan, issuedOf, isOk, AllOk,
        stageCmds, invokesOf_cons_writeJson, invokesOf_cons_invoke, invokesOf_cons_created,
        invokesOf_cons_deleted, invokesOf_cons_errorMsg, writtenOf_cons_writeJson,
        writtenOf_cons_invoke, writtenOf_cons_created, writtenOf_cons_deleted,
        writtenOf_cons_errorMsg, invokesOf_append, writtenOf_append, invokesOf_nil,
        writtenOf_nil, successResult_produced, successResult_invokes, successResult_written,
        successResult_polls, itemError, List.forall_mem_cons]
    · simp [*, processItem, runPdalPipeline, runCommand, stagePlan, issuedOf, isOk, AllOk,
        stageCmds, invokesOf_cons_writeJson, invokesOf_cons_invoke, invokesOf_cons_created,
        invokesOf_cons_deleted, invokesOf_cons_errorMsg, writtenOf_cons_writeJson,
        writtenOf_cons_invoke, writtenOf_cons_created, writtenOf_cons_deleted,
        writtenOf_cons_errorMsg, invokesOf_append, writtenOf_append, invokesOf_nil,
        writtenOf_nil, successResult_produced, successResult_invokes, successResult_written,
        successResult_polls, itemError, List.forall_mem_cons]
    · simp [*, processItem, runPdalPipeline, runCommand, stagePlan, issuedOf, isOk, AllOk,
        stageCmds, invokesOf_cons_writeJson, invokesOf_cons_invoke, invokesOf_cons_created,
        invokesOf_cons_deleted, invokesOf_cons_errorMsg, writtenOf_cons_writeJson,
        writtenOf_cons_invoke, writtenOf_cons_created, writtenOf_cons_deleted,
        writtenOf_cons_errorMsg, invokesOf_append, writtenOf_append, invokesOf_nil,
        writtenOf_nil, successResult_produced, successResult_invokes, successResult_written,
        successResult_polls, itemError, List.forall_mem_cons]
    · simp [*, processItem, runPdalPipeline, runCommand, stagePlan, issuedOf, isOk, AllOk,
        stageCmds, invokesOf_cons_writeJson, invokesOf_cons_invoke, invokesOf_cons_created,
        invokesOf_cons_deleted, invokesOf_cons_errorMsg, writtenOf_cons_writeJson,
        writtenOf_cons_invoke, writtenOf_cons_created, writtenOf_cons_deleted,
        writtenOf_cons_errorMsg, invokesOf_append, writtenOf_append, invokesOf_nil,
        writtenOf_nil, successResult_produced, successResult_invokes, successResult_written,
        successResult_polls, itemError, List.forall_mem_cons]
  · simp [*, processItem, runPdalPipeline, runCommand, stagePlan, issuedOf, isOk, AllOk,
        stageCmds, invokesOf_cons_writeJson, invokesOf_cons_invoke, invokesOf_cons_created,
        invokesOf_cons_deleted, invokesOf_cons_errorMsg, writtenOf_cons_writeJson,
        writtenOf_cons_invoke, writtenOf_cons_created, writtenOf_cons_deleted,
        writtenOf_cons_errorMsg, invokesOf_append, writtenOf_append, invokesOf_nil,
        writtenOf_nil, successResult_produced, successResult_invokes, successResult_written,
        successResult_polls, itemError, List.forall_mem_cons]
  · simp [*, processItem, runPdalPipeline, runCommand, stagePlan, issuedOf, isOk, AllOk,
        stageCmds, invokesOf_cons_writeJson, invokesOf_cons_invoke, invokesOf_cons_created,
        invokesOf_cons_deleted, invokesOf_cons_errorMsg, writtenOf_cons_writeJson,
        writtenOf_cons_invoke, writtenOf_cons_created, writtenOf_cons_deleted,
        writtenOf_cons_errorMsg, invokesOf_append, writtenOf_append, invokesOf_nil,
        writtenOf_nil, successResult_produced, successResult_invokes, successResult_written,
        successResult_polls, itemError, List.forall_mem_cons]
  · simp [*, processItem, runPdalPipeline, runCommand, stagePlan, issuedOf, isOk, AllOk,
        stageCmds, invokesOf_cons_writeJson, invokesOf_cons_invoke, invokesOf_cons_created,
        invokesOf_cons_deleted, invokesOf_cons_errorMsg, writtenOf_cons_writeJson,
        writtenOf_cons_invoke, writtenOf_cons_created, writtenOf_cons_deleted,
        writtenOf_cons_errorMsg, invokesOf_append, writtenOf_append, invokesOf_nil,
        writtenOf_nil, successResult_produced, successResult_invokes, successResult_written,
        successResult_polls, itemError, List.forall_mem_cons]

end QGIS


namespace DSM

open Lidar

/-- The four stage commands of one item of the standalone script, in
order. -/
def stageCmds (it : FileName) : List (List String) :=
  [["pdal", "pipeline", (pipelineSuelo it).toStr],
   ["pdal", "pipeline", (pipelineEdificios it).toStr],
   ["pdal", "pipeline", (pipelineMerge it).toStr],
   ["pdal", "pipeline", (pipelineRaster it).toStr]]

/-- The planned stage sequence of one item of the standalone script: each
stage command paired with the description built for it. -/
def stagePlan (it : FileName) : List (List String × Pipeline) :=
  [(["pdal", "pipeline", (pipelineSuelo it).toStr],
    createPipelineJson ⟨INPUT_FOLDER, it.name⟩ (outputSuelo it) 2),
   (["pdal", "pipeline", (pipelineEdificios it).toStr],
    createPipelineJson ⟨INPUT_FOLDER, it.name⟩ (outputEdificios it) 6),
   (["pdal", "pipeline", (pipelineMerge it).toStr],
    createMergePipelineJson [outputSuelo it, outputEdificios it] (outputMerged it)),
   (["pdal", "pipeline", (pipelineRaster it).toStr],
    createRasterPipelineJson (outputMerged it) (rasterOutput it) RESOLUTION)]

/-- Whether every stage command of the item exits cleanly. -/
def AllOk (env : Env) (it : FileName) : Prop :=
  ∀ c ∈ stageCmds it, env.run c = .ok

instance (env : Env) (it : FileName) : Decidable (AllOk env it) :=
  inferInstanceAs (Decidable (∀ c ∈ stageCmds it, env.run c = .ok))

/-- The eight derived paths of one work item of the standalone script. -/
def derivedPaths (it : FileName) : List FPath :=
  [outputSuelo it, outputEdificios it, outputMerged it, rasterOutput it,
   pipelineSuelo it, pipelineEdificios it, pipelineMerge it, pipelineRaster it]

/-- The derived family is the generic stem-indexed family. -/
theorem derivedPathsD_eq_generic (it : FileName) :
    derivedPaths it = genericDerived OUTPUT_FOLDER TEMP_FOLDER it.stem := rfl

/-- Full characterization of one standalone item: the subprocess
invocations are exactly the planned stage commands up to and including the
first failing one, each passed no timeout at all; the descriptions written
to disk are the matching planned descriptions, in order; the raster is
produced exactly when all four stage commands exit cleanly; and the poll
counter never moves (the script has no cancellation support). -/
theorem processItemD_spec (env : Env) (it : FileName) (s : St) :
    invokesOf (processItem env it s).2.2 =
      (issuedOf env (stagePlan it)).map (fun cp => (cp.1, (none : Option Nat))) ∧
    writtenOf (processItem env it s).2.2 =
      (issuedOf env (stagePlan it)).map (fun cp => cp.2) ∧
    (processItem env it s).2.1 =
      (if AllOk env it then some (rasterOutput it) else none) ∧
    (processItem env it s).1.polls = s.polls := by
  rcases h1 : env.run ["pdal", "pipeline", (pipelineSuelo it).toStr] with _ | e1 | _ | m1
  · rcases h2 : env.run ["pdal", "pipeline", (pipelineEdificios it).toStr] with _ | e2 | _ | m2
    · rcases h3 : env.run ["pdal", "pipeline", (pipelineMerge it).toStr] with _ | e3 | _ | m3
      · rcases h4 : env.run ["pdal", "pipeline", (pipelineRaster it).toStr] with _ | e4 | _ | m4
        · simp [*, processItem, runPdalPipeline, runCommand, stagePlan, issuedOf, isOk, AllOk,
        stageCmds, invokesOf_cons_writeJson, invokesOf_cons_invoke, invokesOf_cons_created,
        invokesOf_cons_deleted, invokesOf_cons_errorMsg, writtenOf_cons_writeJson,
        writtenOf_cons_invoke, writtenOf_cons_created, writtenOf_cons_deleted,
        writtenOf_cons_errorMsg, invokesOf_append, writtenOf_append, invokesOf_nil,
        writtenOf_nil, invokesOf_stderrTail, writtenOf_stderrTail, itemError,
        List.forall_mem_cons]
        · simp [*, processItem, runPdalPipeline, runCommand, stagePlan, issuedOf, isOk, AllOk,
        stageCmds, invokesOf_cons_writeJson, invokesOf_cons_invoke, invokesOf_cons_created,
        invokesOf_cons_deleted, invokesOf_cons_errorMsg, writtenOf_cons_writeJson,
        writtenOf_cons_invoke, writtenOf_cons_created, writtenOf_cons_deleted,
        writtenOf_cons_errorMsg, invokesOf_append, writtenOf_append, invokesOf_nil,
        writtenOf_nil, invokesOf_stderrTail, writtenOf_stderrTail, itemError,
        List.forall_mem_cons]
        · simp [*, processItem, runPdalPipeline, runCommand, stagePlan, issuedOf, isOk, AllOk,
        stageCmds, invokesOf_cons_writeJson, invokesOf_cons_invoke, invokesOf_cons_created,
        invokesOf_cons_deleted, invokesOf_cons_errorMsg, writtenOf_cons_writeJson,
        writtenOf_cons_invoke, writtenOf_cons_created, writtenOf_cons_deleted,
        writtenOf_cons_errorMsg, invokesOf_append, writtenOf_append, invokesOf_nil,
        writtenOf_nil, invokesOf_stderrTail, writtenOf_stderrTail, itemError,
        List.forall_mem_cons]
        · simp [*, processItem, runPdalPipeline, runCommand, stagePlan, issuedOf, isOk, AllOk,
        stageCmds, invokesOf_cons_writeJson, invokesOf_cons_invoke, invokesOf_cons_created,
        invokesOf_cons_deleted, invokesOf_cons_errorMsg, writtenOf_cons_writeJson,
        writtenOf_cons_invoke, writtenOf_cons_created, writtenOf_cons_deleted,
        writtenOf_cons_errorMsg, invokesOf_append, writtenOf_append, invokesOf_nil,
        writtenOf_nil, invokesOf_stderrTail, writtenOf_stderrTail, itemError,
        List.forall_mem_cons]
      · simp [*, processItem, runPdalPipeline, runCommand, stagePlan, issuedOf, isOk, AllOk,
        stageCmds, invokesOf_cons_writeJson, invokesOf_cons_invoke, invokesOf_cons_created,
        invokesOf_cons_deleted, invokesOf_cons_errorMsg, writtenOf_cons_writeJson,
        writtenOf_cons_invoke, writtenOf_cons_created, writtenOf_cons_deleted,
        writtenOf_cons_errorMsg, invokesOf_append, writtenOf_append, invokesOf_nil,
        writtenOf_nil, invokesOf_stderrTail, writtenOf_stderrTail, itemError,
        List.forall_mem_cons]
      · simp [*, processItem, runPdalPipeline, runCommand, stagePlan, issuedOf, isOk, AllOk,
        stageCmds, invokesOf_cons_writeJson, invokesOf_cons_invoke, invokesOf_cons_created,
        invokesOf_cons_deleted, invokesOf_cons_errorMsg, writtenOf_cons_writeJson,
        writtenOf_cons_invoke, writtenOf_cons_created, writtenOf_cons_deleted,
        writtenOf_cons_errorMsg, invokesOf_append, writtenOf_append, invokesOf_nil,
        writtenOf_nil, invokesOf_stderrTail, writtenOf_stderrTail, itemError,
        List.forall_mem_cons]
      · simp [*, processItem, runPdalPipeline, runCommand, stagePlan, issuedOf, isOk, AllOk,
        stageCmds, invokesOf_cons_writeJson, invokesOf_cons_invoke, invokesOf_cons_created,
        invokesOf_cons_deleted, invokesOf_cons_errorMsg, writtenOf_cons_writeJson,
        writtenOf_cons_invoke, writtenOf_cons_created, writtenOf_cons_deleted,
        writtenOf_cons_errorMsg, invokesOf_append, writtenOf_append, invokesOf_nil,
        writtenOf_nil, invokesOf_stderrTail, writtenOf_stderrTail, itemError,
        List.forall_mem_cons]
    · simp [*, processItem, runPdalPipeline, runCommand, stagePlan, issuedOf, isOk, AllOk,
        stageCmds, invokesOf_cons_writeJson, invokesOf_cons_invoke, invokesOf_cons_created,
        invokesOf_cons_deleted, invokesOf_cons_errorMsg, writtenOf_cons_writeJson,
        writtenOf_cons_invoke, writtenOf_cons_created, writtenOf_cons_deleted,
        writtenOf_cons_errorMsg, invokesOf_append, writtenOf_append, invokesOf_nil,
        writtenOf_nil, invokesOf_stderrTail, writtenOf_stderrTail, itemError,
        List.forall_mem_cons]
    · simp [*, processItem, runPdalPipeline, runCommand, stagePlan, issuedOf, isOk, AllOk,
        stageCmds, invokesOf_cons_writeJson, invokesOf_cons_invoke, invokesOf_cons_created,
        invokesOf_cons_deleted, invokesOf_cons_errorMsg, writtenOf_cons_writeJson,
        writtenOf_cons_invoke, writtenOf_cons_created, writtenOf_cons_deleted,
        writtenOf_cons_errorMsg, invokesOf_append, writtenOf_append, invokesOf_nil,
        writtenOf_nil, invokesOf_stderrTail, writtenOf_stderrTail, itemError,
        List.forall_mem_cons]
    · simp [*, processItem, runPdalPipeline, runCommand, stagePlan, issuedOf, isOk, AllOk,
        stageCmds, invokesOf_cons_writeJson, invokesOf_cons_invoke, invokesOf_cons_created,
        invokesOf_cons_deleted, invokesOf_cons_errorMsg, writtenOf_cons_writeJson,
        writtenOf_cons_invoke, writtenOf_cons_created, writtenOf_cons_deleted,
        writtenOf_cons_errorMsg, invokesOf_append, writtenOf_append, invokesOf_nil,
        writtenOf_nil, invokesOf_stderrTail, writtenOf_stderrTail, itemError,
        List.forall_mem_cons]
  · simp [*, processItem, runPdalPipeline, runCommand, stagePlan, issuedOf, isOk, AllOk,
        stageCmds, invokesOf_cons_writeJson, invokesOf_cons_invoke, invokesOf_cons_created,
        invokesOf_cons_deleted, invokesOf_cons_errorMsg, writtenOf_cons_writeJson,
        writtenOf_cons_invoke, writtenOf_cons_created, writtenOf_cons_deleted,
        writtenOf_cons_errorMsg, invokesOf_append, writtenOf_append, invokesOf_nil,
        writtenOf_nil, invokesOf_stderrTail, writtenOf_stderrTail, itemError,
        List.forall_mem_cons]
  · simp [*, processItem, runPdalPipeline, runCommand, stagePlan, issuedOf, isOk, AllOk,
        stageCmds, invokesOf_cons_writeJson, invokesOf_cons_invoke, invokesOf_cons_created,
        invokesOf_cons_deleted, invokesOf_cons_errorMsg, writtenOf_cons_writeJson,
        writtenOf_cons_invoke, writtenOf_cons_created, writtenOf_cons_deleted,
        writtenOf_cons_errorMsg, invokesOf_append, writtenOf_append, invokesOf_nil,
        writtenOf_nil, invokesOf_stderrTail, writtenOf_stderrTail, itemError,
        List.forall_mem_cons]
  · simp [*, processItem, runPdalPipeline, runCommand, stagePlan, issuedOf, isOk, AllOk,
        stageCmds, invokesOf_cons_writeJson, invokesOf_cons_invoke, invokesOf_cons_created,
        invokesOf_cons_deleted, invokesOf_cons_errorMsg, writtenOf_cons_writeJson,
        writtenOf_cons_invoke, writtenOf_cons_created, writtenOf_cons_deleted,
        writtenOf_cons_errorMsg, invokesOf_append, writtenOf_append, invokesOf_nil,
        writtenOf_nil, invokesOf_stderrTail, writtenOf_stderrTail, itemError,
        List.forall_mem_cons]

end DSM



namespace QGIS

open Lidar

/-- The per-file loop under an environment that never reports cancellation:
the produced rasters are exactly those of the items whose four stages all
exit cleanly, in input order, and the cancellation flag is polled exactly
once per item. -/
theorem itemLoop_spec (env : Env) (inF outF : String) (res : ℚ) (cleanup : Bool)
    (hnc : ∀ n, env.canceled n = false) (items : List FileName) (s : St) :
    (itemLoop env inF outF res cleanup items s).2.1 =
      (items.filter (fun it => decide (AllOk env outF it))).map (rasterOutput outF) ∧
    (itemLoop env inF outF res cleanup items s).1.polls = s.polls + items.length := by
  induction items generalizing s with
  | nil => simp [itemLoop]
  | cons it rest ih =>
    simp only [itemLoop, pollCanceled, hnc, Bool.false_eq_true, if_false]
    rcases hpi : processItem env inF outF res cleanup it { s with polls := s.polls + 1 }
      with ⟨s2, r, es⟩
    have hspec := processItem_spec env inF outF res cleanup it { s with polls := s.polls + 1 }
    rw [hpi] at hspec
    have hr : r = (if AllOk env outF it then some (rasterOutput outF it) else none) :=
      hspec.2.2.1
    have h2p : s2.polls = s.polls + 1 := hspec.2.2.2
    rcases hrec : itemLoop env inF outF res cleanup rest s2 with ⟨s3, rs, es2⟩
    have ih2 := ih s2
    rw [hrec] at ih2
    have hrs : rs = (rest.filter (fun it => decide (AllOk env outF it))).map
        (rasterOutput outF) := ih2.1
    have h3p : s3.polls = s2.polls + rest.length := ih2.2
    constructor
    · by_cases hall : AllOk env outF it
      · rw [hr, if_pos hall]
        simp [List.filter_cons, decide_eq_true hall, hrs]
      · rw [hr, if_neg hall]
        have hd : decide (AllOk env outF it) = false := decide_eq_false hall
        simp [List.filter_cons, hd, hrs]
    · show s3.polls = s.polls + (it :: rest).length
      rw [h3p, h2p, List.length_cons]
      omega

/-- The QGIS fill loop never lets an exception escape when no fill command
has an exception outcome. -/
theorem fillLoop_noRaise (env : Env) (c : List String) (fd : Nat) (outF : String)
    (hx : ∀ l : List String, ∀ m, env.run (c ++ l) ≠ .exc m) :
    ∀ (rasters : List FPath) (s : St),
      (fillLoop env c fd outF rasters s).2.2 = none := by
  intro rasters
  induction rasters with
  | nil => intro s; rfl
  | cons raster rest ih =>
    intro s
    simp only [fillLoop, pollCanceled]
    by_cases hc : env.canceled s.polls
    · simp [hc]
    · simp only [hc, Bool.false_eq_true, if_false]
      rcases hro : env.run (c ++ ["-md", toString fd, "-si", "0", raster.toStr,
        (⟨nodataF outF, nameStem raster.name ++ "_filled.tif"⟩ : FPath).toStr])
        with _ | e | _ | m
      · simp [runCommand, hro, ih]
      · simp [runCommand, hro, ih]
      · simp [runCommand, hro, ih]
      · exact absurd hro (hx _ _)

/-- The QGIS fill loop polls the cancellation flag once per raster when the
flag is never set and no fill command has an exception outcome. -/
theorem fillLoop_polls (env : Env) (c : List String) (fd : Nat) (outF : String)
    (hnc : ∀ n, env.canceled n = false)
    (hx : ∀ l : List String, ∀ m, env.run (c ++ l) ≠ .exc m) :
    ∀ (rasters : List FPath) (s : St),
      (fillLoop env c fd outF rasters s).1.polls = s.polls + rasters.length := by
  intro rasters
  induction rasters with
  | nil => intro s; simp [fillLoop]
  | cons raster rest ih =>
    intro s
    simp only [fillLoop, pollCanceled, hnc, Bool.false_eq_true, if_false]
    rcases hro : env.run (c ++ ["-md", toString fd, "-si", "0", raster.toStr,
      (⟨nodataF outF, nameStem raster.name ++ "_filled.tif"⟩ : FPath).toStr])
      with _ | e | _ | m
    · simp only [runCommand, hro]
      simp [ih]
      omega
    · simp only [runCommand, hro]
      simp [ih]
      omega
    · simp only [runCommand, hro]
      simp [ih]
      omega
    · exact absurd hro (hx _ _)

/-- The QGIS fill phase never lets an exception escape when non-pdal
commands never have an exception outcome. -/
theorem fillPhase_noRaise (env : Env) (fd : Nat) (outF : String)
    (hsafe : ∀ (cmd : List String) m, cmd.head? ≠ some "pdal" → env.run cmd ≠ .exc m)
    (rasters : List FPath) (s : St) :
    (fillPhase env fd outF rasters s).2.2 = none := by
  unfold fillPhase
  by_cases he : rasters.isEmpty
  · simp [he]
  · simp only [he, Bool.false_eq_true, if_false]
    rcases hdet : detectFillnodata env with ⟨o, ed⟩
    rcases o with _ | c
    · simp
    · have hmem : c ∈ opciones := by
        have := detectFrom_mem env opciones c
        unfold detectFillnodata at hdet
        rw [hdet] at this
        exact this rfl
      rcases hfl : fillLoop env c fd outF rasters s with ⟨s1, es, r⟩
      have := fillLoop_noRaise env c fd outF
        (fun l m => by
          intro hcon
          exact hsafe (c ++ l) m (opciones_head c hmem l) hcon) rasters s
      rw [hfl] at this
      simp only [hfl]
      exact this

end QGIS

namespace DSM

open Lidar

/-- The per-file loop of the standalone script: the produced rasters are
exactly those of the items whose four stages all exit cleanly, in input
order, and the poll counter never moves. -/
theorem itemLoopD_spec (env : Env) (items : List FileName) (s : St) :
    (itemLoop env items s).2.1 =
      (items.filter (fun it => decide (AllOk env it))).map rasterOutput ∧
    (itemLoop env items s).1.polls = s.polls := by
  induction items generalizing s with
  | nil => simp [itemLoop]
  | cons it rest ih =>
    simp only [itemLoop]
    rcases hpi : processItem env it s with ⟨s2, r, es⟩
    have hspec := processItemD_spec env it s
    rw [hpi] at hspec
    have hr : r = (if AllOk env it then some (rasterOutput it) else none) := hspec.2.2.1
    have h2p : s2.polls = s.polls := hspec.2.2.2
    rcases hrec : itemLoop env rest s2 with ⟨s3, rs, es2⟩
    have ih2 := ih s2
    rw [hrec] at ih2
    have hrs : rs = (rest.filter (fun it => decide (AllOk env it))).map rasterOutput := ih2.1
    have h3p : s3.polls = s2.polls := ih2.2
    constructor
    · by_cases hall : AllOk env it
      · rw [hr, if_pos hall]
        simp [List.filter_cons, decide_eq_true hall, hrs]
      · rw [hr, if_neg hall]
        have hd : decide (AllOk env it) = false := decide_eq_false hall
        simp [List.filter_cons, hd, hrs]
    · show s3.polls = s.polls
      rw [h3p, h2p]

/-- The standalone fill loop never lets an exception escape when every fill
command has a tame outcome (clean or non-zero exit). -/
theorem fillLoopD_noRaise (env : Env) (c : List String)
    (ht : ∀ l : List String, Tame (env.run (c ++ l))) :
    ∀ (rasters : List FPath) (s : St),
      (fillLoop env c rasters s).2.2 = none := by
  intro rasters
  induction rasters with
  | nil => intro s; rfl
  | cons raster rest ih =>
    intro s
    simp only [fillLoop]
    rcases hro : env.run (c ++ ["-md", toString FILL_DISTANCE, "-si", "0", raster.toStr,
      (⟨NODATA_FOLDER, nameStem raster.name ++ "_nodata.tif"⟩ : FPath).toStr])
      with _ | e | _ | m
    · simp [runCommand, hro, ih]
    · simp [runCommand, hro, ih]
    · rcases ht ["-md", toString FILL_DISTANCE, "-si", "0", raster.toStr,
        (⟨NODATA_FOLDER, nameStem raster.name ++ "_nodata.tif"⟩ : FPath).toStr] with h | ⟨e, h⟩ <;>
        rw [hro] at h <;> cases h
    · rcases ht ["-md", toString FILL_DISTANCE, "-si", "0", raster.toStr,
        (⟨NODATA_FOLDER, nameStem raster.name ++ "_nodata.tif"⟩ : FPath).toStr] with h | ⟨e, h⟩ <;>
        rw [hro] at h <;> cases h

/-- The standalone fill phase never lets an exception escape when non-pdal
commands are tame. -/
theorem fillPhaseD_noRaise (env : Env) (htame : TameNonPdal env)
    (rasters : List FPath) (s : St) :
    (fillPhase env rasters s).2.2 = none := by
  unfold fillPhase
  by_cases he : rasters.isEmpty
  · simp [he]
  · simp only [he, Bool.false_eq_true, if_false]
    rcases hdet : getFillnodataCommand env with ⟨o, ed⟩
    rcases o with _ | c
    · simp
    · have hmem : c ∈ opciones := by
        have := detectFrom_mem env opciones c
        unfold getFillnodataCommand at hdet
        rw [hdet] at this
        exact this rfl
      rcases hfl : fillLoop env c rasters s with ⟨s1, es, r⟩
      have := fillLoopD_noRaise env c
        (fun l => htame (c ++ l) (opciones_head c hmem l)) rasters s
      rw [hfl] at this
      simp only [hfl]
      exact this

/-- The batch-end cleanup never lets an exception escape when no deletion
fails. -/
theorem batchEndCleanup_noRaise (env : Env) (s : St)
    (hu : ∀ q, env.unlinkExc q = false) :
    (batchEndCleanup env s).2.2 = none :=
  unlinkSeq_noRaise env _ s hu

/-- After the batch-end cleanup no *.json file in the temp folder remains,
whatever wrote it, when no deletion fails. -/
theorem batchEndCleanup_clears (env : Env) (s : St)
    (hu : ∀ q, env.unlinkExc q = false) (p : FPath) (hp : isTempJson p = true) :
    p ∉ (batchEndCleanup env s).1.files := by
  intro hmem
  rw [batchEndCleanup, unlinkSeq_files env _ s hu] at hmem
  exact hmem.2 (List.mem_filter.2 ⟨hmem.1, hp⟩)

end DSM

namespace QGIS

open Lidar

/-- An empty discovery aborts the QGIS batch with the fatal message before
any processing. -/
theorem processAlgorithm_empty (env : Env) (inF outF : String) (listing : List FileName)
    (res : ℚ) (fd : Nat) (cl : Bool) (s : St) (he : lazFiles listing = []) :
    processAlgorithm env inF outF listing res fd cl s =
      { state := s, events := [],
        result := .aborted "No se encontraron archivos LAZ/LAS en la carpeta" } := by
  unfold processAlgorithm
  simp [he]

/-- With a non-empty discovery, no cancellation, and no unexpected
exception outside the pdal stages, the QGIS batch completes and reports the
number of items whose stages all succeeded over the number discovered. -/
theorem processAlgorithm_counts (env : Env) (inF outF : String) (listing : List FileName)
    (res : ℚ) (fd : Nat) (cl : Bool) (s : St)
    (hne : lazFiles listing ≠ [])
    (hnc : ∀ n, env.canceled n = false)
    (hsafe : ∀ (cmd : List String) m, cmd.head? ≠ some "pdal" → env.run cmd ≠ .exc m) :
    (processAlgorithm env inF outF listing res fd cl s).result =
      .counts (((lazFiles listing).filter (fun it => decide (AllOk env outF it))).length)
        (lazFiles listing).length := by
  unfold processAlgorithm
  have hie : (lazFiles listing).isEmpty = false := by
    rcases h : lazFiles listing with _ | ⟨a, b⟩
    · exact absurd h hne
    · rfl
  simp only [hie, Bool.false_eq_true, if_false]
  rcases hloop : itemLoop env inF outF res cl (lazFiles listing) s with ⟨s1, rasters, e1⟩
  have hl := itemLoop_spec env inF outF res cl hnc (lazFiles listing) s
  rw [hloop] at hl
  have hrs : rasters =
      ((lazFiles listing).filter (fun it => decide (AllOk env outF it))).map
        (rasterOutput outF) := hl.1
  rcases hfp : fillPhase env fd outF rasters s1 with ⟨s2, e2, x2⟩
  have hx2 : x2 = none := by
    have := fillPhase_noRaise env fd outF hsafe rasters s1
    rw [hfp] at this
    exact this
  subst hx2
  simp only [hfp]
  simp [hrs]

end QGIS

namespace DSM

open Lidar

/-- An empty discovery aborts the standalone script with the fatal message
before any processing. -/
theorem main_empty (env : Env) (listing : List FileName) (s : St)
    (he : lazFiles listing = []) :
    (main env listing s).result =
      .aborted "No se encontraron archivos .laz en la carpeta de entrada" := by
  unfold main
  simp [he]

/-- With a non-empty discovery, tame non-pdal commands and no deletion
failure, the standalone script completes, reports the number of items whose
stages all succeeded over the number discovered, and leaves no *.json file
in the temp folder. -/
theorem main_spec (env : Env) (listing : List FileName) (s : St)
    (hne : lazFiles listing ≠ []) (htame : TameNonPdal env)
    (hu : ∀ q, env.unlinkExc q = false) :
    (main env listing s).result =
      .counts (((lazFiles listing).filter (fun it => decide (AllOk env it))).length)
        (lazFiles listing).length ∧
    ∀ p, isTempJson p = true → p ∉ (main env listing s).state.files := by
  unfold main
  have hie : (lazFiles listing).isEmpty = false := by
    rcases h : lazFiles listing with _ | ⟨a, b⟩
    · exact absurd h hne
    · rfl
  simp only [hie, Bool.false_eq_true, if_false]
  rcases hloop : itemLoop env (lazFiles listing) s with ⟨s1, rasters, e1⟩
  have hl := itemLoopD_spec env (lazFiles listing) s
  rw [hloop] at hl
  have hrs : rasters =
      ((lazFiles listing).filter (fun it => decide (AllOk env it))).map rasterOutput := hl.1
  rcases hfp : fillPhase env rasters s1 with ⟨s2, e2, x2⟩
  have hx2 : x2 = none := by
    have := fillPhaseD_noRaise env htame rasters s1
    rw [hfp] at this
    exact this
  subst hx2
  rcases hbc : batchEndCleanup env s2 with ⟨s3, e3, x3⟩
  have hx3 : x3 = none := by
    have := batchEndCleanup_noRaise env s2 hu
    rw [hbc] at this
    exact this
  subst hx3
  simp only [hfp, hbc]
  constructor
  · simp [hrs]
  · intro p hp
    have := batchEndCleanup_clears env s2 hu p hp
    rw [hbc] at this
    exact this

end DSM

namespace QGIS

open Lidar

/-- The raster path differs from the ground intermediate. -/
theorem raster_ne_suelo (outF : String) (it : FileName) :
    rasterOutput outF it ≠ outputSuelo outF it := fun h =>
  appendSuffixNe (by decide) (by decide) (congrArg FPath.name h)

/-- The raster path differs from the buildings intermediate. -/
theorem raster_ne_edificios (outF : String) (it : FileName) :
    rasterOutput outF it ≠ outputEdificios outF it := fun h =>
  appendSuffixNe (by decide) (by decide) (congrArg FPath.name h)

/-- The raster path differs from the merged intermediate. -/
theorem raster_ne_merged (outF : String) (it : FileName) :
    rasterOutput outF it ≠ outputMerged outF it := fun h =>
  appendSuffixNe (by decide) (by decide) (congrArg FPath.name h)

/-- No path in the output folder is a transient pipeline file of the nested
temp folder. -/
theorem outName_notin_pipes (outF : String) (n : String) (it : FileName) :
    (⟨outF, n⟩ : FPath) ∉
      [pipelineSuelo outF it, pipelineEdificios outF it,
       pipelineMerge outF it, pipelineRaster outF it] := by
  intro hmem
  simp only [pipelineSuelo, pipelineEdificios, pipelineMerge, pipelineRaster,
    List.mem_cons, List.not_mem_nil, or_false, FPath.mk.injEq] at hmem
  rcases hmem with ⟨h, -⟩ | ⟨h, -⟩ | ⟨h, -⟩ | ⟨h, -⟩ <;> exact outFolder_ne_tempF outF h

/-- Membership in the file set after a fully successful item whose
deletions all succeed. -/
theorem processItem_files_success (env : Env) (inF outF : String) (res : ℚ)
    (cleanup : Bool) (it : FileName) (s : St)
    (hall : AllOk env outF it) (hu : ∀ q, env.unlinkExc q = false) (x : FPath) :
    x ∈ (processItem env inF outF res cleanup it s).1.files ↔
      (x = rasterOutput outF it ∨ x = pipelineRaster outF it ∨
        x = outputMerged outF it ∨ x = pipelineMerge outF it ∨
        x = outputEdificios outF it ∨ x = pipelineEdificios outF it ∨
        x = outputSuelo outF it ∨ x = pipelineSuelo outF it ∨ x ∈ s.files) ∧
      (cleanup = true →
        x ∉ [outputSuelo outF it, outputEdificios outF it, outputMerged outF it]) ∧
      x ∉ [pipelineSuelo outF it, pipelineEdificios outF it,
           pipelineMerge outF it, pipelineRaster outF it] := by
  have h1 : env.run ["pdal", "pipeline", (pipelineSuelo outF it).toStr] = .ok :=
    hall _ (by simp [stageCmds])
  have h2 : env.run ["pdal", "pipeline", (pipelineEdificios outF it).toStr] = .ok :=
    hall _ (by simp [stageCmds])
  have h3 : env.run ["pdal", "pipeline", (pipelineMerge outF it).toStr] = .ok :=
    hall _ (by simp [stageCmds])
  have h4 : env.run ["pdal", "pipeline", (pipelineRaster outF it).toStr] = .ok :=
    hall _ (by simp [stageCmds])
  simp only [processItem, runPdalPipeline, runCommand, h1, h2, h3, h4]
  rw [successResult_files env outF cleanup it _ _ hu x]
  simp only [mem_addFile]

end QGIS

namespace Lidar

/-- Probe timeouts: every invocation the probe loop performs passes the
5-second timeout. -/
theorem detectFrom_probe_timeout (env : Env) :
    ∀ (cs : List (List String)) (pr : List String) (t : Option Nat),
      (pr, t) ∈ invokesOf (detectFrom env cs).2 → t = some 5 := by
  intro cs
  induction cs with
  | nil =>
    intro pr t h
    simp [detectFrom, invokesOf_nil] at h
  | cons c rest ih =>
    intro pr t h
    rcases hd : detectFrom env rest with ⟨r, es⟩
    by_cases hc : env.run (c ++ ["--help"]) = .ok
    · simp [detectFrom, hc, invokesOf_cons_invoke, invokesOf_nil] at h
      exact h.2
    · simp only [detectFrom, hd, if_neg hc] at h
      rw [invokesOf_cons_invoke] at h
      rcases List.mem_cons.1 h with heq | hmem
      · simp at heq
        exact heq.2
      · have hr := ih pr t
        rw [hd] at hr
        exact hr hmem

/-- Environment in which every command exits cleanly, nothing is canceled
and no deletion fails. -/
def envAllOk : Env := ⟨fun _ => .ok, fun _ => false, fun _ => false⟩

/-- Environment in which every command exits non-zero with stderr boom. -/
def envAllFail : Env := ⟨fun _ => .fail "boom", fun _ => false, fun _ => false⟩

/-- Environment in which every command exits non-zero with empty stderr. -/
def envFailEmpty : Env := ⟨fun _ => .fail "", fun _ => false, fun _ => false⟩

/-- Environment in which every command times out. -/
def envTimeoutAll : Env := ⟨fun _ => .timeout, fun _ => false, fun _ => false⟩

/-- Environment in which pdal stages and probes exit cleanly but every
other command (in particular each fill invocation) raises an unexpected
exception. -/
def envFillExc : Env :=
  ⟨fun cmd =>
     if cmd.head? = some "pdal" then .ok
     else if cmd.getLast? = some "--help" then .ok
     else .exc "boom",
   fun _ => false, fun _ => false⟩

/-- Environment in which every command exits cleanly and cancellation is
requested from the second poll on. -/
def envCancelEarly : Env := ⟨fun _ => .ok, fun n => decide (1 ≤ n), fun _ => false⟩

/-- Empty initial filesystem. -/
def s0 : St := ⟨[], 0⟩

/-- Work item a.laz. -/
def itA : FileName := ⟨"a", "laz"⟩

/-- Work item a.las: same stem as a.laz, different extension. -/
def itALas : FileName := ⟨"a", "las"⟩

/-- Work item b.laz. -/
def itB : FileName := ⟨"b", "laz"⟩

/-- A *.json file in the standalone temp folder not written by any stage of
the current run. -/
def preJson : FPath := ⟨DSM.TEMP_FOLDER, "old.json"⟩

end Lidar

namespace Claims

open Lidar

/-- C1: For every work item, the four stages run in the strict order
filter-ground (class 2), filter-buildings (class 6), merge, rasterize; if
any stage's run returns failure, no later stage of that item is started,
the item produces no raster, and processing continues with the next work
item.  In both variants the invocations and written descriptions of one
item are exactly the planned ordered stage sequence up to and including the
first failing stage, the raster is produced exactly when all four stages
succeed, and the per-file loops keep processing the remaining items,
collecting exactly the rasters of the fully successful ones. -/
theorem c1_stage_order_and_gating :
    (∀ (env : Env) (inF outF : String) (res : ℚ) (cleanup : Bool) (it : FileName) (s : St),
      invokesOf (QGIS.processItem env inF outF res cleanup it s).2.2 =
        (issuedOf env (QGIS.stagePlan inF outF res it)).map (fun cp => (cp.1, some 300)) ∧
      writtenOf (QGIS.processItem env inF outF res cleanup it s).2.2 =
        (issuedOf env (QGIS.stagePlan inF outF res it)).map (fun cp => cp.2) ∧
      ((QGIS.processItem env inF outF res cleanup it s).2.1 =
          some (QGIS.rasterOutput outF it) ↔ QGIS.AllOk env outF it) ∧
      ((QGIS.processItem env inF outF res cleanup it s).2.1 = none ↔
          ¬ QGIS.AllOk env outF it)) ∧
    (∀ (env : Env) (it : FileName) (s : St),
      invokesOf (DSM.processItem env it s).2.2 =
        (issuedOf env (DSM.stagePlan it)).map (fun cp => (cp.1, (none : Option Nat))) ∧
      writtenOf (DSM.processItem env it s).2.2 =
        (issuedOf env (DSM.stagePlan it)).map (fun cp => cp.2) ∧
      ((DSM.processItem env it s).2.1 = some (DSM.rasterOutput it) ↔ DSM.AllOk env it) ∧
      ((DSM.processItem env it s).2.1 = none ↔ ¬ DSM.AllOk env it)) ∧
    (∀ (r : List String → Outcome) (u : String → Bool) (inF outF : String) (res : ℚ)
        (cleanup : Bool) (items : List FileName) (s : St),
      (QGIS.itemLoop ⟨r, fun _ => false, u⟩ inF outF res cleanup items s).2.1 =
        (items.filter (fun it => decide (QGIS.AllOk ⟨r, fun _ => false, u⟩ outF it))).map
          (QGIS.rasterOutput outF)) ∧
    (∀ (env : Env) (items : List FileName) (s : St),
      (DSM.itemLoop env items s).2.1 =
        (items.filter (fun it => decide (DSM.AllOk env it))).map DSM.rasterOutput) := by
  refine ⟨?_, ?_, ?_, ?_⟩
  · intro env inF outF res cleanup it s
    obtain ⟨hi, hw, hp, -⟩ := QGIS.processItem_spec env inF outF res cleanup it s
    refine ⟨hi, hw, ?_, ?_⟩
    · rw [hp]
      by_cases hall : QGIS.AllOk env outF it
      · simp [hall]
      · simp [hall]
    · rw [hp]
      by_cases hall : QGIS.AllOk env outF it
      · simp [hall]
      · simp [hall]
  · intro env it s
    obtain ⟨hi, hw, hp, -⟩ := DSM.processItemD_spec env it s
    refine ⟨hi, hw, ?_, ?_⟩
    · rw [hp]
      by_cases hall : DSM.AllOk env it
      · simp [hall]
      · simp [hall]
    · rw [hp]
      by_cases hall : DSM.AllOk env it
      · simp [hall]
      · simp [hall]
  · intro r u inF outF res cleanup items s
    exact (QGIS.itemLoop_spec ⟨r, fun _ => false, u⟩ inF outF res cleanup
      (fun n => rfl) items s).1
  · intro env items s
    exact (DSM.itemLoopD_spec env items s).1

/-- C2 counterexample: the QGIS batch can abort with a non-empty work-item
set — an unexpected exception raised by a fill invocation escapes the
algorithm, so the abort is not restricted to the empty-discovery case and
the batch does not always complete with counts. -/
theorem c2_counterexample :
    QGIS.lazFiles [itA] ≠ [] ∧
    (QGIS.processAlgorithm envFillExc "in" "out" [itA] (1 / 2) 75 true s0).result =
      .aborted "boom" := by
  constructor
  · decide
  · decide

/-- C2 amended: each variant aborts before processing exactly when its own
discovery is empty; stage failures and item exceptions are isolated per
item and fill failures per raster, and — provided no command outside the
pdal stages produces an unexpected exception (and, for the standalone
variant, no timeout there either and no deletion failure at batch end) —
the batch completes and reports the count of items whose four stages all
succeeded over the count of discovered items.  An unexpected exception
during a fill invocation is unguarded and aborts the batch. -/
theorem c2_amended :
    (∀ (env : Env) (inF outF : String) (listing : List FileName) (res : ℚ) (fd : Nat)
        (cl : Bool) (s : St), QGIS.lazFiles listing = [] →
      (QGIS.processAlgorithm env inF outF listing res fd cl s).result =
        .aborted "No se encontraron archivos LAZ/LAS en la carpeta") ∧
    (∀ (env : Env) (inF outF : String) (listing : List FileName) (res : ℚ) (fd : Nat)
        (cl : Bool) (s : St),
      QGIS.lazFiles listing ≠ [] → (∀ n, env.canceled n = false) →
      (∀ (cmd : List String) m, cmd.head? ≠ some "pdal" → env.run cmd ≠ .exc m) →
      (QGIS.processAlgorithm env inF outF listing res fd cl s).result =
        .counts (((QGIS.lazFiles listing).filter
            (fun it => decide (QGIS.AllOk env outF it))).length)
          (QGIS.lazFiles listing).length) ∧
    (∀ (env : Env) (listing : List FileName) (s : St), DSM.lazFiles listing = [] →
      (DSM.main env listing s).result =
        .aborted "No se encontraron archivos .laz en la carpeta de entrada") ∧
    (∀ (env : Env) (listing : List FileName) (s : St),
      DSM.lazFiles listing ≠ [] → TameNonPdal env → (∀ q, env.unlinkExc q = false) →
      (DSM.main env listing s).result =
        .counts (((DSM.lazFiles listing).filter
            (fun it => decide (DSM.AllOk env it))).length)
          (DSM.lazFiles listing).length) := by
  refine ⟨?_, ?_, ?_, ?_⟩
  · intro env inF outF listing res fd cl s he
    rw [QGIS.processAlgorithm_empty env inF outF listing res fd cl s he]
  · intro env inF outF listing res fd cl s hne hnc hsafe
    exact QGIS.processAlgorithm_counts env inF outF listing res fd cl s hne hnc hsafe
  · intro env listing s he
    exact DSM.main_empty env listing s he
  · intro env listing s hne ht hu
    exact (DSM.main_spec env listing s hne ht hu).1

/-- C2 witness: on a singleton discovery with every command succeeding,
both variants report counts over the discovered set. -/
theorem c2_witness :
    QGIS.lazFiles [itA] ≠ [] ∧
    (QGIS.processAlgorithm envAllOk "in" "out" [itA] (1 / 2) 75 true s0).result =
      .counts (((QGIS.lazFiles [itA]).filter
          (fun it => decide (QGIS.AllOk envAllOk "out" it))).length)
        (QGIS.lazFiles [itA]).length ∧
    DSM.lazFiles [itA] ≠ [] ∧
    (DSM.main envAllOk [itA] s0).result =
      .counts (((DSM.lazFiles [itA]).filter
          (fun it => decide (DSM.AllOk envAllOk it))).length)
        (DSM.lazFiles [itA]).length :=
  ⟨by decide,
   c2_amended.2.1 envAllOk "in" "out" [itA] (1 / 2) 75 true s0 (by decide)
     (fun n => rfl) (fun cmd m h hcon => nomatch hcon),
   by decide,
   c2_amended.2.2.2 envAllOk [itA] s0 (by decide)
     (fun cmd h => Or.inl rfl) (fun q => rfl)⟩

/-- C3 counterexample: in the QGIS variant a failed item's transient
pipeline JSON is not deleted at item end (the continue skips the cleanup
block), and since this variant has no batch-end cleanup the file persists
after the batch completes. -/
theorem c3_counterexample :
    (QGIS.processAlgorithm envAllFail "in" "out" [itA] (1 / 2) 75 true s0).result =
      .counts 0 1 ∧
    QGIS.pipelineSuelo "out" itA ∈
      (QGIS.processAlgorithm envAllFail "in" "out" [itA] (1 / 2) 75 true s0).state.files := by
  constructor
  · decide
  · decide

/-- C3 amended: in the QGIS variant the transient pipeline files of an item
are deleted at item end only when all four stages succeeded (and the
deletions raise no error); in the standalone variant they are not deleted
per item, but the batch-end cleanup deletes every *.json in the temp
folder, so there none persists after a completed batch, for any mix of item
successes and failures. -/
theorem c3_amended :
    (∀ (env : Env) (inF outF : String) (res : ℚ) (cleanup : Bool) (it : FileName) (s : St),
      QGIS.AllOk env outF it → (∀ q, env.unlinkExc q = false) →
      QGIS.pipelineSuelo outF it ∉
        (QGIS.processItem env inF outF res cleanup it s).1.files ∧
      QGIS.pipelineEdificios outF it ∉
        (QGIS.processItem env inF outF res cleanup it s).1.files ∧
      QGIS.pipelineMerge outF it ∉
        (QGIS.processItem env inF outF res cleanup it s).1.files ∧
      QGIS.pipelineRaster outF it ∉
        (QGIS.processItem env inF outF res cleanup it s).1.files) ∧
    (∀ (env : Env) (listing : List FileName) (s : St),
      DSM.lazFiles listing ≠ [] → TameNonPdal env → (∀ q, env.unlinkExc q = false) →
      ∀ p, DSM.isTempJson p = true → p ∉ (DSM.main env listing s).state.files) := by
  constructor
  · intro env inF outF res cleanup it s hall hu
    refine ⟨?_, ?_, ?_, ?_⟩ <;>
      (intro hmem
       rw [QGIS.processItem_files_success env inF outF res cleanup it s hall hu] at hmem
       exact hmem.2.2 (by simp))
  · intro env listing s hne ht hu
    exact (DSM.main_spec env listing s hne ht hu).2

/-- C3 witness: on a fully successful item with no deletion failure, the
ground-stage pipeline file is gone from the QGIS item's final file set. -/
theorem c3_witness :
    QGIS.AllOk envAllOk "out" itA ∧
    QGIS.pipelineSuelo "out" itA ∉
      (QGIS.processItem envAllOk "in" "out" (1 / 2) true itA s0).1.files :=
  ⟨by decide,
   (c3_amended.1 envAllOk "in" "out" (1 / 2) true itA s0 (by decide) (fun q => rfl)).1⟩

/-- C4 counterexample: the very first pipeline-stage invocation of the
standalone batch passes no timeout argument at all, so not every
pipeline-stage invocation enforces the fixed 300-second timeout. -/
theorem c4_counterexample :
    (invokesOf (DSM.main envAllOk [itA] s0).events).head? =
      some (["pdal", "pipeline", (DSM.pipelineSuelo itA).toStr], (none : Option Nat)) ∧
    (none : Option Nat) ≠ some 300 := by
  constructor
  · decide
  · decide

/-- C4 amended: the QGIS runner passes a 300-second timeout on every
invocation, reports the stripped stderr or the fallback literal Sin
detalles on a non-zero exit, and reports a dedicated timeout message
distinct from the generic one; probes pass a 5-second timeout in both
variants; but the standalone runner passes no timeout at all and on a
non-zero exit prints a generic line plus the stderr only when it is
non-empty, with no fallback literal. -/
theorem c4_amended :
    (∀ (env : Env) (cmd : List String),
      invokesOf (QGIS.runCommand env cmd).2 = [(cmd, some 300)]) ∧
    (∀ (env : Env) (cmd : List String) (e : String), env.run cmd = .fail e →
      (QGIS.runCommand env cmd).2 =
        [.invoke cmd (some 300),
         .errorMsg ("Error: " ++ (if e = "" then "Sin detalles" else e.trim))]) ∧
    (∀ (env : Env) (cmd : List String), env.run cmd = .timeout →
      (QGIS.runCommand env cmd).2 =
        [.invoke cmd (some 300), .errorMsg "Timeout: comando excedió 5 minutos"]) ∧
    ("Timeout: comando excedió 5 minutos" ≠ "Error: Sin detalles") ∧
    (∀ (env : Env) (cmd : List String) (d : String),
      invokesOf (DSM.runCommand env cmd d).2 = [(cmd, (none : Option Nat))]) ∧
    (∀ (env : Env) (cmd : List String) (d : String) (e : String), env.run cmd = .fail e →
      (DSM.runCommand env cmd d).2 =
        [.invoke cmd (none : Option Nat), .errorMsg ("Error en " ++ d)] ++
          (if e = "" then [] else [.errorMsg e.trim])) ∧
    (∀ (env : Env) (pr : List String) (t : Option Nat),
      (pr, t) ∈ invokesOf (detectFrom env opciones).2 → t = some 5) := by
  refine ⟨?_, ?_, ?_, by decide, ?_, ?_, ?_⟩
  · intro env cmd
    rcases h : env.run cmd with _ | e | _ | m <;>
      simp [QGIS.runCommand, h, invokesOf_cons_invoke, invokesOf_cons_errorMsg, invokesOf_nil]
  · intro env cmd e h
    simp [QGIS.runCommand, h]
  · intro env cmd h
    simp [QGIS.runCommand, h]
  · intro env cmd d
    rcases h : env.run cmd with _ | e | _ | m <;>
      simp [DSM.runCommand, h, invokesOf_cons_invoke, invokesOf_cons_errorMsg,
        invokesOf_nil, invokesOf_stderrTail, invokesOf_append]
  · intro env cmd d e h
    simp [DSM.runCommand, h]
  · intro env pr t h
    exact detectFrom_probe_timeout env opciones pr t h

/-- C4 witness: concrete runs showing the fallback literal, the dedicated
timeout message, the stderr-only standalone diagnostics, and the probed
5-second timeout. -/
theorem c4_witness :
    envFailEmpty.run ["x"] = .fail "" ∧
    (QGIS.runCommand envFailEmpty ["x"]).2 =
      [.invoke ["x"] (some 300),
       .errorMsg ("Error: " ++ (if ("" : String) = "" then "Sin detalles"
         else ("" : String).trim))] ∧
    (QGIS.runCommand envTimeoutAll ["x"]).2 =
      [.invoke ["x"] (some 300), .errorMsg "Timeout: comando excedió 5 minutos"] ∧
    (DSM.runCommand envFailEmpty ["x"] "d").2 =
      ([.invoke ["x"] (none : Option Nat), .errorMsg ("Error en " ++ "d")] ++
        (if ("" : String) = "" then [] else [Event.errorMsg (("" : String).trim)])) ∧
    (some 5 : Option Nat) = some 5 :=
  ⟨rfl,
   c4_amended.2.1 envFailEmpty ["x"] "" rfl,
   c4_amended.2.2.1 envTimeoutAll ["x"] rfl,
   c4_amended.2.2.2.2.2.1 envFailEmpty ["x"] "d" "" rfl,
   c4_amended.2.2.2.2.2.2 envAllOk ["python", "-m", "osgeo_utils.gdal_fillnodata", "--help"]
     (some 5) (by decide)⟩

/-- C5 counterexample: a directory whose only file is a.las contains a file
matching the claimed recognized extensions, yet the standalone discovery
returns nothing — it scans only *.laz. -/
theorem c5_counterexample :
    DSM.lazFiles [itALas] = [] ∧
    [itALas].filter (fun f => decide (f.ext = "laz" ∨ f.ext = "las")) = [itALas] := by
  constructor
  · decide
  · decide

/-- C5 amended: discovery is a non-recursive scan of the directory listing
with no content validation; the QGIS variant returns exactly the files with
extension laz or las, while the standalone variant returns exactly the
files with extension laz. -/
theorem c5_amended :
    (∀ (listing : List FileName) (f : FileName),
      f ∈ QGIS.lazFiles listing ↔ f ∈ listing ∧ (f.ext = "laz" ∨ f.ext = "las")) ∧
    (∀ (listing : List FileName) (f : FileName),
      f ∈ DSM.lazFiles listing ↔ f ∈ listing ∧ f.ext = "laz") := by
  constructor
  · intro listing f
    simp only [QGIS.lazFiles, List.mem_append, List.mem_filter, decide_eq_true_eq]
    tauto
  · intro listing f
    simp only [DSM.lazFiles, List.mem_filter, decide_eq_true_eq]

/-- C6: both variants probe the fixed ordered candidate list (python -m
osgeo_utils.gdal_fillnodata; gdal_fillnodata; gdal_fillnodata.py) and
return the first candidate whose --help probe exits cleanly, probing
exactly the candidates up to and including that one (later candidates stay
untried); any non-clean probe outcome moves on to the next candidate, and
when no candidate succeeds the result is absence (none), never an error. -/
theorem c6_tool_detection :
    ∀ env : Env,
      (QGIS.detectFillnodata env).1 =
        opciones.find? (fun c => isOk (env.run (c ++ ["--help"]))) ∧
      (DSM.getFillnodataCommand env).1 =
        opciones.find? (fun c => isOk (env.run (c ++ ["--help"]))) ∧
      (QGIS.detectFillnodata env).2 =
        (opciones.take ((opciones.takeWhile
            (fun c => !isOk (env.run (c ++ ["--help"])))).length + 1)).map
          (fun c => Event.invoke (c ++ ["--help"]) (some 5)) ∧
      (DSM.getFillnodataCommand env).2 =
        (opciones.take ((opciones.takeWhile
            (fun c => !isOk (env.run (c ++ ["--help"])))).length + 1)).map
          (fun c => Event.invoke (c ++ ["--help"]) (some 5)) := by
  intro env
  exact ⟨(detectFrom_spec env opciones).1, (detectFrom_spec env opciones).1,
    (detectFrom_spec env opciones).2, (detectFrom_spec env opciones).2⟩

/-- C7: for a work item whose four stages all succeed (and whose deletions
raise no error), the cleanup flag set deletes all three intermediate
artifacts and the flag unset keeps all three; the final raster persists
either way; and a deletion failure is non-fatal: whatever the deletion
behavior of the environment, the item still reports its produced raster. -/
theorem c7_cleanup_policy :
    ∀ (env : Env) (inF outF : String) (res : ℚ) (cleanup : Bool) (it : FileName) (s : St),
      QGIS.AllOk env outF it → (∀ q, env.unlinkExc q = false) →
      (QGIS.rasterOutput outF it ∈
        (QGIS.processItem env inF outF res cleanup it s).1.files) ∧
      (cleanup = true →
        QGIS.outputSuelo outF it ∉
          (QGIS.processItem env inF outF res cleanup it s).1.files ∧
        QGIS.outputEdificios outF it ∉
          (QGIS.processItem env inF outF res cleanup it s).1.files ∧
        QGIS.outputMerged outF it ∉
          (QGIS.processItem env inF outF res cleanup it s).1.files) ∧
      (cleanup = false →
        QGIS.outputSuelo outF it ∈
          (QGIS.processItem env inF outF res cleanup it s).1.files ∧
        QGIS.outputEdificios outF it ∈
          (QGIS.processItem env inF outF res cleanup it s).1.files ∧
        QGIS.outputMerged outF it ∈
          (QGIS.processItem env inF outF res cleanup it s).1.files) ∧
      (∀ env2 : Env, QGIS.AllOk env2 outF it →
        (QGIS.processItem env2 inF outF res cleanup it s).2.1 =
          some (QGIS.rasterOutput outF it)) := by
  intro env inF outF res cleanup it s hall hu
  have hfiles := QGIS.processItem_files_success env inF outF res cleanup it s hall hu
  refine ⟨?_, ?_, ?_, ?_⟩
  · rw [hfiles]
    refine ⟨Or.inl rfl, ?_, ?_⟩
    · intro hcl
      simp [QGIS.raster_ne_suelo outF it, QGIS.raster_ne_edificios outF it,
        QGIS.raster_ne_merged outF it]
    · exact QGIS.outName_notin_pipes outF _ it
  · intro hcl
    refine ⟨?_, ?_, ?_⟩ <;>
      (intro hmem
       rw [hfiles] at hmem
       exact hmem.2.1 hcl (by simp))
  · intro hcl
    refine ⟨?_, ?_, ?_⟩
    · rw [hfiles]
      refine ⟨Or.inr (Or.inr (Or.inr (Or.inr (Or.inr (Or.inr (Or.inl rfl)))))), ?_, ?_⟩
      · intro h
        rw [hcl] at h
        cases h
      · exact QGIS.outName_notin_pipes outF _ it
    · rw [hfiles]
      refine ⟨Or.inr (Or.inr (Or.inr (Or.inr (Or.inl rfl)))), ?_, ?_⟩
      · intro h
        rw [hcl] at h
        cases h
      · exact QGIS.outName_notin_pipes outF _ it
    · rw [hfiles]
      refine ⟨Or.inr (Or.inr (Or.inl rfl)), ?_, ?_⟩
      · intro h
        rw [hcl] at h
        cases h
      · exact QGIS.outName_notin_pipes outF _ it
  · intro env2 hall2
    rw [(QGIS.processItem_spec env2 inF outF res cleanup it s).2.2.1, if_pos hall2]

/-- C7 witness: on a concrete fully successful item with cleanup on, the
raster is present and the ground intermediate is gone. -/
theorem c7_witness :
    QGIS.AllOk envAllOk "out" itA ∧
    QGIS.rasterOutput "out" itA ∈
      (QGIS.processItem envAllOk "in" "out" (1 / 2) true itA s0).1.files ∧
    QGIS.outputSuelo "out" itA ∉
      (QGIS.processItem envAllOk "in" "out" (1 / 2) true itA s0).1.files :=
  ⟨by decide,
   (c7_cleanup_policy envAllOk "in" "out" (1 / 2) true itA s0 (by decide) (fun q => rfl)).1,
   ((c7_cleanup_policy envAllOk "in" "out" (1 / 2) true itA s0 (by decide)
      (fun q => rfl)).2.1 rfl).1⟩

/-- C8 counterexample: with cancellation requested from the second poll on,
a single item still runs all four of its planned stage invocations and the
poll counter does not move during the item — there is no cancellation check
between the stages of an item. -/
theorem c8_counterexample :
    (QGIS.processItem envCancelEarly "in" "out" (1 / 2) true itA s0).1.polls = s0.polls ∧
    invokesOf (QGIS.processItem envCancelEarly "in" "out" (1 / 2) true itA s0).2.2 =
      (QGIS.stagePlan "in" "out" (1 / 2) itA).map (fun cp => (cp.1, some 300)) := by
  constructor
  · decide
  · decide

/-- C8 amended: the QGIS batch polls the cooperative cancellation flag once
before each work item and once before each fill invocation, and never
inside an item — a cancellation requested mid-item takes effect only at the
next loop boundary, and a stage already handed to the runner returns its
outcome regardless. -/
theorem c8_amended :
    (∀ (env : Env) (inF outF : String) (res : ℚ) (cleanup : Bool) (it : FileName) (s : St),
      (QGIS.processItem env inF outF res cleanup it s).1.polls = s.polls) ∧
    (∀ (r : List String → Outcome) (u : String → Bool) (inF outF : String) (res : ℚ)
        (cleanup : Bool) (items : List FileName) (s : St),
      (QGIS.itemLoop ⟨r, fun _ => false, u⟩ inF outF res cleanup items s).1.polls =
        s.polls + items.length) ∧
    (∀ (env : Env) (c : List String) (fd : Nat) (outF : String) (rasters : List FPath)
        (s : St),
      (∀ n, env.canceled n = false) →
      (∀ (l : List String) m, env.run (c ++ l) ≠ .exc m) →
      (QGIS.fillLoop env c fd outF rasters s).1.polls = s.polls + rasters.length) := by
  refine ⟨?_, ?_, ?_⟩
  · intro env inF outF res cleanup it s
    exact (QGIS.processItem_spec env inF outF res cleanup it s).2.2.2
  · intro r u inF outF res cleanup items s
    exact (QGIS.itemLoop_spec ⟨r, fun _ => false, u⟩ inF outF res cleanup
      (fun n => rfl) items s).2
  · intro env c fd outF rasters s hnc hx
    exact QGIS.fillLoop_polls env c fd outF hnc hx rasters s

/-- C8 witness: one fill invocation under a never-canceled, never-raising
environment advances the poll counter by exactly one. -/
theorem c8_witness :
    (QGIS.fillLoop envAllOk ["gdal_fillnodata"] 75 "out"
        [QGIS.rasterOutput "out" itA] s0).1.polls = s0.polls + 1 := by
  have h := c8_amended.2.2 envAllOk ["gdal_fillnodata"] 75 "out"
    [QGIS.rasterOutput "out" itA] s0 (fun n => rfl) (fun l m hcon => nomatch hcon)
  simpa using h

/-- C9 counterexample: in the QGIS variant the files a.laz and a.las are
two distinct discovered work items with the same stem, and their derived
intermediate and transient path families are identical, not disjoint. -/
theorem c9_counterexample :
    QGIS.lazFiles [itA, itALas] = [itA, itALas] ∧
    itA ≠ itALas ∧
    QGIS.derivedPaths "out" itA = QGIS.derivedPaths "out" itALas := by
  refine ⟨?_, ?_, ?_⟩
  · decide
  · decide
  · decide

/-- C9 amended: derived paths are namespaced by the work item's stem alone,
so two work items with distinct stems have pairwise-disjoint derived-path
families in both variants, while items that differ only in extension share
the same stem and collide on every derived path. -/
theorem c9_amended :
    (∀ (outF : String) (it1 it2 : FileName), it1.stem ≠ it2.stem →
      ∀ p ∈ QGIS.derivedPaths outF it1, p ∉ QGIS.derivedPaths outF it2) ∧
    (∀ (it1 it2 : FileName), it1.stem ≠ it2.stem →
      ∀ p ∈ DSM.derivedPaths it1, p ∉ DSM.derivedPaths it2) := by
  constructor
  · intro outF it1 it2 hs p hp hq
    rw [QGIS.derivedPaths_eq_generic] at hp hq
    exact genericDerived_disjoint (QGIS.outFolder_ne_tempF outF) hs p hp hq
  · intro it1 it2 hs p hp hq
    rw [DSM.derivedPathsD_eq_generic] at hp hq
    exact genericDerived_disjoint (by decide) hs p hp hq

/-- C9 witness: items a.laz and b.laz have distinct stems and their derived
families are disjoint. -/
theorem c9_witness :
    itA.stem ≠ itB.stem ∧
    QGIS.outputSuelo "out" itA ∉ QGIS.derivedPaths "out" itB :=
  ⟨by decide,
   c9_amended.1 "out" itA itB (by decide) (QGIS.outputSuelo "out" itA) (by decide)⟩

/-- C10: the standalone batch-end cleanup deletes every file matching
*.json in the temp folder, whatever wrote it: after it, a path survives iff
it was present and is not a temp *.json — so a pre-existing .json in that
folder is removed too — and after a completed standalone batch no temp
*.json remains. -/
theorem c10_cleanup_glob :
    (∀ (env : Env) (s : St), (∀ q, env.unlinkExc q = false) → ∀ p : FPath,
      p ∈ (DSM.batchEndCleanup env s).1.files ↔
        p ∈ s.files ∧ DSM.isTempJson p = false) ∧
    (∀ (env : Env) (listing : List FileName) (s : St),
      DSM.lazFiles listing ≠ [] → TameNonPdal env → (∀ q, env.unlinkExc q = false) →
      ∀ p, DSM.isTempJson p = true → p ∉ (DSM.main env listing s).state.files) := by
  constructor
  · intro env s hu p
    rw [DSM.batchEndCleanup, unlinkSeq_files env _ s hu]
    constructor
    · rintro ⟨hin, hnot⟩
      refine ⟨hin, ?_⟩
      cases hb : DSM.isTempJson p
      · rfl
      · exact absurd (List.mem_filter.2 ⟨hin, hb⟩) hnot
    · rintro ⟨hin, hfalse⟩
      refine ⟨hin, fun hmem => ?_⟩
      rw [List.mem_filter] at hmem
      rw [hmem.2] at hfalse
      cases hfalse
  · intro env listing s hne ht hu
    exact (DSM.main_spec env listing s hne ht hu).2

/-- C10 witness: a pre-existing old.json in the temp folder is removed by
the batch-end cleanup. -/
theorem c10_witness :
    DSM.isTempJson preJson = true ∧
    preJson ∉ (DSM.batchEndCleanup envAllOk ⟨[preJson], 0⟩).1.files := by
  refine ⟨by decide, fun hmem => ?_⟩
  have h := (c10_cleanup_glob.1 envAllOk ⟨[preJson], 0⟩ (fun q => rfl) preJson).1 hmem
  exact absurd h.2 (by decide)

end Claims
